import Mathlib

/-!
A shallow embedding of the interned IR and cross-assembly linking engine of
the `cilly` layer (files `src/cilly/src/v2/asm_link.rs` and
`src/cilly/src/v2/cilnode.rs`), together with proofs about the translation
engine, the arithmetic-binop typing rule of `CILNode::get_type`, and the
legacy-IR upgrade pass `CILNode::from_v1`.

Handles are modelled as `Nat`; each interning arena is a list of values with
insert-or-dedup semantics.  Mutation (`&mut Assembly`) is modelled by explicit
state passing; fallible operations return `Option`/`Except`.  Recursion that
in the source goes through arena handles is modelled with explicit fuel; all
definitions are structural, so they evaluate by `decide`/`rfl`.
-/

/-- An interning arena: an ordered sequence of values.  `insert` returns the
handle of the first structurally-equal value if one is present, otherwise
appends the value and returns the fresh handle.  Modelled from the spec
(section 3, "Interning Arena"); the arena type itself is not under `src/`. -/
structure Arena (α : Type) where
  values : List α
deriving DecidableEq

/-- Insert-or-dedup: return the existing handle of a structurally equal value,
or append and return the fresh handle. -/
def Arena.insert {α : Type} [DecidableEq α] (a : Arena α) (v : α) : Nat × Arena α :=
  match a.values.findIdx? (fun x => x = v) with
  | some i => (i, a)
  | none => (a.values.length, ⟨a.values ++ [v]⟩)

/-- Handle lookup. `none` models the panic on a handle from a different arena. -/
def Arena.get {α : Type} (a : Arena α) (i : Nat) : Option α :=
  a.values.get? i

/-- Fixed-width integer kinds (`cilly::v2::Int`), as used by the embedded code. -/
inductive IntTy where
  | U8 | U16 | U32 | U64 | USize
  | I8 | I16 | I32 | I64 | ISize
deriving DecidableEq

/-- Float kinds (`cilly::v2::Float`), as used by the embedded code. -/
inductive FloatTy where
  | F32 | F64
deriving DecidableEq

/-- `cilly::v2::Type`: the tagged type variant.  Nested types, signatures and
class references are arena handles (`Nat`).  The payload of `PlatformGeneric`
is opaque to the embedded code paths and is modelled as two `Nat` tags. -/
inductive Ty where
  | Ptr (inner : Nat)
  | Ref (inner : Nat)
  | Int (int : IntTy)
  | Float (float : FloatTy)
  | PlatformString
  | PlatformChar
  | Bool
  | Void
  | PlatformObject
  | PlatformGeneric (arg : Nat) (generic_kind : Nat)
  | ClassRef (cref : Nat)
  | PlatformArray (elem : Nat) (dims : Nat)
  | FnPtr (sig : Nat)
deriving DecidableEq

/-- `cilly::v2::FnSig`: input types and output type, stored inline. -/
structure FnSig where
  inputs : List Ty
  output : Ty
deriving DecidableEq

/-- `cilly::v2::ClassRef`: name handle, optional owning-assembly name handle,
value-type flag, inline generic arguments. -/
structure ClassRef where
  name : Nat
  asm : Option Nat
  is_valuetype : Bool
  generics : List Ty
deriving DecidableEq

/-- Alias for `Bool`, used where a constructor named `Bool` is in scope. -/
abbrev Boolean := Bool

/-- `cilly::v2::Const`: constants.  Numeric payloads are modelled as `Nat`/`Int`
(float payloads as raw bit patterns).  The variants are the ones constructed by
the embedded code (`from_v1` and the intrinsic lowering in `src/`); `Const`
itself is not under `src/`. -/
inductive Const where
  | U8 (v : Nat) | U16 (v : Nat) | U32 (v : Nat) | U64 (v : Nat) | USize (v : Nat)
  | I8 (v : Int) | I16 (v : Int) | I32 (v : Int) | I64 (v : Int) | ISize (v : Int)
  | Bool (v : Boolean)
  | F32 (bits : Nat) | F64 (bits : Nat)
  | PlatformString (s : Nat)
deriving DecidableEq

/-- `cilly::v2::cilnode::ExtendKind`. -/
inductive ExtendKind where
  | ZeroExtend | SignExtend
deriving DecidableEq

/-- `cilly::v2::cilnode::MethodKind`. -/
inductive MethodKind where
  | Static | Instance | Virtual | Constructor
deriving DecidableEq

/-- `cilly::v2::cilnode::UnOp`. -/
inductive UnOp where
  | Not | Neg
deriving DecidableEq

/-- `cilly::v2::cilnode::BinOp`. -/
inductive BinOp where
  | Add | Eq | Sub | Mul | LtUn | Lt | GtUn | Gt | Or | XOr | And
  | Rem | RemUn | Shl | Shr | ShrUn | DivUn | Div
deriving DecidableEq

/-- `cilly::v2::cilnode::PtrCastRes`. -/
inductive PtrCastRes where
  | Ptr (t : Nat)
  | Ref (t : Nat)
  | FnPtr (s : Nat)
  | USize
  | ISize
deriving DecidableEq

/-- `cilly::v2::CILNode`: expression nodes.  Boxed tuples are flattened into
constructor fields; operand/type/field/method references are arena handles. -/
inductive CILNode where
  | Const (c : Const)
  | BinOp (lhs rhs : Nat) (op : BinOp)
  | UnOp (a : Nat) (op : UnOp)
  | LdLoc (n : Nat)
  | LdLocA (n : Nat)
  | LdArg (n : Nat)
  | LdArgA (n : Nat)
  | Call (mref : Nat) (args : List Nat)
  | IntCast (input : Nat) (target : IntTy) (extend : ExtendKind)
  | FloatCast (input : Nat) (target : FloatTy) (is_signed : Boolean)
  | RefToPtr (input : Nat)
  | PtrCast (input : Nat) (res : PtrCastRes)
  | LdFieldAdress (addr field : Nat)
  | LdField (addr field : Nat)
  | LdInd (addr tpe : Nat) (volitale : Boolean)
  | SizeOf (tpe : Nat)
  | GetException
  | IsInst (obj tpe : Nat)
  | CheckedCast (obj tpe : Nat)
  | CallI (fnptr sig : Nat) (args : List Nat)
  | LocAlloc (size : Nat)
  | LdStaticField (sfld : Nat)
  | LdFtn (mref : Nat)
  | LdTypeToken (tpe : Nat)
  | LdLen (len : Nat)
  | LocAllocAlgined (tpe : Nat) (align : Nat)
  | LdElelemRef (array index : Nat)
  | UnboxAny (obj tpe : Nat)
deriving DecidableEq

/-- `cilly::v2::FieldDesc`: owner class-reference handle, name handle, inline type. -/
structure FieldDesc where
  owner : Nat
  name : Nat
  tpe : Ty
deriving DecidableEq

/-- `cilly::v2::StaticFieldDesc`: owner class-reference handle, name handle, inline type. -/
structure StaticFieldDesc where
  owner : Nat
  name : Nat
  tpe : Ty
deriving DecidableEq

/-- `cilly::v2::MethodRef`: owner class-reference handle (`class` in the source),
name handle, signature handle, call kind, inline generic arguments. -/
structure MethodRef where
  cls : Nat
  name : Nat
  sig : Nat
  kind : MethodKind
  generics : List Ty
deriving DecidableEq

/-- Comparison-kind tag carried by `BranchCond::Lt`/`Gt`.  Modelled from the
spec: an opaque enum tag copied unchanged by translation (its definition is not
under `src/`). -/
inductive CmpKind where
  | Signed | Unsigned | Float
deriving DecidableEq

/-- `cilly::v2::cilroot::BranchCond`, payloads are node handles. -/
inductive BranchCond where
  | True (cond : Nat)
  | False (cond : Nat)
  | Eq (a b : Nat)
  | Ne (a b : Nat)
  | Lt (a b : Nat) (kind : CmpKind)
  | Gt (a b : Nat) (kind : CmpKind)
deriving DecidableEq

/-- `cilly::v2::CILRoot`: statement roots.  The variants and payload shapes are
those destructured by `Assembly::translate_root` in `asm_link.rs` (the defining
file `cilroot.rs` is not under `src/`; modelled from the spec, section 3,
"Root").  Boxed tuples are flattened; `StInd` carries its type inline. -/
inductive CILRoot where
  | StLoc (loc : Nat) (node : Nat)
  | StArg (loc : Nat) (node : Nat)
  | Ret (node : Nat)
  | Pop (node : Nat)
  | Throw (node : Nat)
  | Branch (target sub_target : Nat) (cond : Option BranchCond)
  | VoidRet
  | Break
  | Nop
  | ReThrow
  | SourceFileInfo (line_start line_len col_start col_len : Nat) (file : Nat)
  | SetField (field addr val : Nat)
  | Call (mref : Nat) (args : List Nat)
  | StInd (addr val : Nat) (tpe : Ty) (volatile : Boolean)
  | InitBlk (dst val count : Nat)
  | CpBlk (dst src len : Nat)
  | CallI (fnptr sig : Nat) (args : List Nat)
  | ExitSpecialRegion (target source : Nat)
  | SetStaticField (field val : Nat)
deriving DecidableEq

/-- `cilly::v2::BasicBlock`: ordered root handles, an identifying block id, and
an optional list of handler blocks (nested exception regions).  Modelled from
the spec (section 3, "BasicBlock") and the accessors used by
`Assembly::translate_block` (`roots()`, `block_id()`, `handler()`,
`BasicBlock::new(roots, block_id, handler)`); its defining file is not under
`src/`. -/
structure BasicBlock where
  roots : List Nat
  block_id : Nat
  handler : Option (List BasicBlock)

mutual
def decEqBasicBlock : (a b : BasicBlock) → Decidable (a = b)
  | ⟨r1, i1, h1⟩, ⟨r2, i2, h2⟩ =>
    match decEq r1 r2 with
    | isFalse ne => isFalse (by intro h; cases h; exact ne rfl)
    | isTrue e1 =>
      match decEq i1 i2 with
      | isFalse ne => isFalse (by intro h; cases h; exact ne rfl)
      | isTrue e2 =>
        match decEqHandler h1 h2 with
        | isFalse ne => isFalse (by intro h; cases h; exact ne rfl)
        | isTrue e3 => isTrue (by rw [e1, e2, e3])
def decEqHandler : (a b : Option (List BasicBlock)) → Decidable (a = b)
  | none, none => isTrue rfl
  | none, some _ => isFalse (by intro h; cases h)
  | some _, none => isFalse (by intro h; cases h)
  | some a, some b =>
    match decEqBlockList a b with
    | isTrue e => isTrue (by rw [e])
    | isFalse ne => isFalse (by intro h; cases h; exact ne rfl)
def decEqBlockList : (a b : List BasicBlock) → Decidable (a = b)
  | [], [] => isTrue rfl
  | [], _ :: _ => isFalse (by intro h; cases h)
  | _ :: _, [] => isFalse (by intro h; cases h)
  | a :: as, b :: bs =>
    match decEqBasicBlock a b with
    | isFalse ne => isFalse (by intro h; cases h; exact ne rfl)
    | isTrue e =>
      match decEqBlockList as bs with
      | isTrue e2 => isTrue (by rw [e, e2])
      | isFalse ne => isFalse (by intro h; cases h; exact ne rfl)
end

instance : DecidableEq BasicBlock := decEqBasicBlock

/-- `cilly::v2::MethodImpl`: a method's implementation variant, per the shapes
destructured by `Assembly::translate_method_def` (spec, section 3,
"Method definition"; the defining file is not under `src/`). -/
inductive MethodImpl where
  | MethodBody (blocks : List BasicBlock) (locals : List (Option Nat × Nat))
  | Extern (lib : Nat) (preserve_errno : Boolean)
  | AliasFor (mref : Nat)
  | Missing
deriving DecidableEq

/-- `cilly::v2::MethodDef`: access level (opaque tag), owner class-definition
handle (`class` in the source; read as a class-reference handle by
`translate_method_def`, written as the resolved definition handle), name,
signature handle, call kind, implementation, per-argument optional names.
Modelled from the spec (section 3) and the accessors in `asm_link.rs`. -/
structure MethodDef where
  access : Nat
  cls : Nat
  name : Nat
  sig : Nat
  kind : MethodKind
  implementation : MethodImpl
  arg_names : List (Option Nat)
deriving DecidableEq

/-- `cilly::v2::ClassDef`: per the constructor argument order
`ClassDef::new(name, is_valuetype, generics, extends, fields, static_fields,
methods, access, explict_size)` used by `translate_class_def`.  Fields are
`(inline type, name handle, optional offset)`; static fields are
`(inline type, name handle, thread-local flag)`.  `generics`, `access` and
`explict_size` are opaque scalars copied unchanged.  Modelled from the spec
(section 3) and the accessors in `asm_link.rs`. -/
structure ClassDef where
  name : Nat
  is_valuetype : Bool
  generics : Nat
  extends_cref : Option Nat
  fields : List (Ty × Nat × Option Nat)
  static_fields : List (Ty × Nat × Bool)
  methods : List Nat
  access : Nat
  explict_size : Option Nat
deriving DecidableEq

/-- `cilly::v2::Assembly`: one interning arena per IR category plus the
"main module" class-reference handle and the class-reference-to-definition
resolution map (spec, sections 3 and 4.2; the defining file is not under
`src/`).  `ref_to_def` models `Assembly::class_ref_to_def`'s backing state. -/
structure Assembly where
  strings : Arena String
  types : Arena Ty
  sigs : Arena FnSig
  class_refs : Arena ClassRef
  fields : Arena FieldDesc
  static_fields : Arena StaticFieldDesc
  method_refs : Arena MethodRef
  nodes : Arena CILNode
  roots : Arena CILRoot
  method_defs : Arena MethodDef
  class_defs : Arena ClassDef
  ref_to_def : List (Nat × Nat)
  main_module : Nat
deriving DecidableEq

def Assembly.get_string (a : Assembly) (i : Nat) : Option String := a.strings.get i

def Assembly.get_type (a : Assembly) (i : Nat) : Option Ty := a.types.get i

def Assembly.get_sig (a : Assembly) (i : Nat) : Option FnSig := a.sigs.get i

def Assembly.class_ref (a : Assembly) (i : Nat) : Option ClassRef := a.class_refs.get i

def Assembly.get_field (a : Assembly) (i : Nat) : Option FieldDesc := a.fields.get i

def Assembly.get_static_field (a : Assembly) (i : Nat) : Option StaticFieldDesc :=
  a.static_fields.get i

def Assembly.get_mref (a : Assembly) (i : Nat) : Option MethodRef := a.method_refs.get i

def Assembly.get_node (a : Assembly) (i : Nat) : Option CILNode := a.nodes.get i

def Assembly.get_root (a : Assembly) (i : Nat) : Option CILRoot := a.roots.get i

def Assembly.method_def (a : Assembly) (i : Nat) : Option MethodDef := a.method_defs.get i

def Assembly.alloc_string (a : Assembly) (s : String) : Nat × Assembly :=
  let p := a.strings.insert s
  (p.1, { a with strings := p.2 })

def Assembly.alloc_type (a : Assembly) (t : Ty) : Nat × Assembly :=
  let p := a.types.insert t
  (p.1, { a with types := p.2 })

def Assembly.alloc_sig (a : Assembly) (s : FnSig) : Nat × Assembly :=
  let p := a.sigs.insert s
  (p.1, { a with sigs := p.2 })

def Assembly.alloc_class_ref (a : Assembly) (c : ClassRef) : Nat × Assembly :=
  let p := a.class_refs.insert c
  (p.1, { a with class_refs := p.2 })

def Assembly.alloc_field (a : Assembly) (f : FieldDesc) : Nat × Assembly :=
  let p := a.fields.insert f
  (p.1, { a with fields := p.2 })

def Assembly.alloc_sfld (a : Assembly) (f : StaticFieldDesc) : Nat × Assembly :=
  let p := a.static_fields.insert f
  (p.1, { a with static_fields := p.2 })

def Assembly.alloc_methodref (a : Assembly) (m : MethodRef) : Nat × Assembly :=
  let p := a.method_refs.insert m
  (p.1, { a with method_refs := p.2 })

def Assembly.alloc_node (a : Assembly) (n : CILNode) : Nat × Assembly :=
  let p := a.nodes.insert n
  (p.1, { a with nodes := p.2 })

def Assembly.alloc_root (a : Assembly) (r : CILRoot) : Nat × Assembly :=
  let p := a.roots.insert r
  (p.1, { a with roots := p.2 })

/-- `Assembly::new_method`: registers a method definition, returning its handle. -/
def Assembly.new_method (a : Assembly) (m : MethodDef) : Nat × Assembly :=
  let p := a.method_defs.insert m
  (p.1, { a with method_defs := p.2 })

/-- `Assembly::nptr`: builds a pointer type to an interned inner type.
Modelled from the spec and its call sites in `src/` (e.g.
`let void_ptr = ctx.nptr(Type::Void)` in `terminator/intrinsics/mod.rs`);
its definition is not under `src/`. -/
def Assembly.nptr (a : Assembly) (inner : Ty) : Ty × Assembly :=
  let p := a.alloc_type inner
  (Ty.Ptr p.1, p.2)

/-- `Assembly::class_ref_to_def`: resolution of a class-reference handle to its
class-definition handle when a local definition exists.  Modelled from the spec
(section 4.2); its definition is not under `src/`. -/
def Assembly.class_ref_to_def (a : Assembly) (cref : Nat) : Option Nat :=
  (a.ref_to_def.find? (fun p => p.1 = cref)).map Prod.snd

/-- Rendering of `IntTy` mirroring the source's `Debug` output for `Int`. -/
def IntTy.dbg : IntTy → String
  | .U8 => "U8" | .U16 => "U16" | .U32 => "U32" | .U64 => "U64" | .USize => "USize"
  | .I8 => "I8" | .I16 => "I16" | .I32 => "I32" | .I64 => "I64" | .ISize => "ISize"

/-- Rendering of `FloatTy` mirroring the source's `Debug` output for `Float`. -/
def FloatTy.dbg : FloatTy → String
  | .F32 => "F32" | .F64 => "F64"

/-- Rendering of `Ty` modelling the source's `Debug` output for `Type`, used by
the `format!` in the arithmetic-binop type-mismatch error. -/
def Ty.dbg : Ty → String
  | .Ptr i => "Ptr(" ++ toString i ++ ")"
  | .Ref i => "Ref(" ++ toString i ++ ")"
  | .Int i => "Int(" ++ i.dbg ++ ")"
  | .Float f => "Float(" ++ f.dbg ++ ")"
  | .PlatformString => "PlatformString"
  | .PlatformChar => "PlatformChar"
  | .Bool => "Bool"
  | .Void => "Void"
  | .PlatformObject => "PlatformObject"
  | .PlatformGeneric a k => "PlatformGeneric(" ++ toString a ++ ", " ++ toString k ++ ")"
  | .ClassRef c => "ClassRef(" ++ toString c ++ ")"
  | .PlatformArray e d => "PlatformArray(" ++ toString e ++ ", " ++ toString d ++ ")"
  | .FnPtr s => "FnPtr(" ++ toString s ++ ")"

/-- Rendering of `BinOp` mirroring the source's `Debug` output, used by the
`todo!("op:{op:?}")` in `get_type`. -/
def BinOp.dbg : BinOp → String
  | .Add => "Add" | .Eq => "Eq" | .Sub => "Sub" | .Mul => "Mul"
  | .LtUn => "LtUn" | .Lt => "Lt" | .GtUn => "GtUn" | .Gt => "Gt"
  | .Or => "Or" | .XOr => "XOr" | .And => "And"
  | .Rem => "Rem" | .RemUn => "RemUn"
  | .Shl => "Shl" | .Shr => "Shr" | .ShrUn => "ShrUn"
  | .DivUn => "DivUn" | .Div => "Div"

/-- Failure modes of the embedded `CILNode::get_type`.  `mismatch` models the
`Err(format!(...))` return; `unimplemented` models the `todo!` panics;
`badHandle` models resolving an invalid handle; `outOfFuel` is the embedding's
recursion bound. -/
inductive TypeError where
  | mismatch (msg : String)
  | unimplemented (msg : String)
  | badHandle
  | outOfFuel
deriving DecidableEq

/-- The type-mismatch message `format!("mismatched binop args. {lhs:?} != {rhs:?}")`. -/
def mismatchMsg (lhs rhs : Ty) : String :=
  "mismatched binop args. " ++ lhs.dbg ++ " != " ++ rhs.dbg

/-- The typing rule applied by `CILNode::get_type` to an add/sub/mul `BinOp`
once both operand types are known (`cilnode.rs` lines 163-171): if the types
differ, the `match` scrutinee is the pair `(rhs, lhs)` and the two accepted
patterns return `rhs` and `lhs` respectively. -/
def arithBinopType (lhs rhs : Ty) : Except TypeError Ty :=
  if lhs ≠ rhs then
    match rhs, lhs with
    | Ty.Int IntTy.USize, Ty.Ptr _ => Except.ok rhs
    | Ty.Int IntTy.ISize, Ty.Ptr _ => Except.ok rhs
    | Ty.Ptr _, Ty.Int IntTy.USize => Except.ok lhs
    | Ty.Ptr _, Ty.Int IntTy.ISize => Except.ok lhs
    | _, _ => Except.error (TypeError.mismatch (mismatchMsg lhs rhs))
  else
    Except.ok lhs

/-- The static result type of a constant (`Const::get_type`).  Modelled from
the spec: the natural type of each constant variant (its definition is not
under `src/`). -/
def Const.get_type : Const → Ty
  | .U8 _ => .Int .U8
  | .U16 _ => .Int .U16
  | .U32 _ => .Int .U32
  | .U64 _ => .Int .U64
  | .USize _ => .Int .USize
  | .I8 _ => .Int .I8
  | .I16 _ => .Int .I16
  | .I32 _ => .Int .I32
  | .I64 _ => .Int .I64
  | .ISize _ => .Int .ISize
  | .Bool _ => .Bool
  | .F32 _ => .Float .F32
  | .F64 _ => .Float .F64
  | .PlatformString _ => .PlatformString

/-- `CILNode::get_type(&self, sig, locals, asm)`: the static result type of a
node.  Only the `Const` arm and the add/sub/mul `BinOp` arm are implemented in
the source; every other arm is a `todo!` (modelled as `.unimplemented`). -/
def get_type (fuel : Nat) (sig : Nat) (locals : List (Option Nat × Nat))
    (asm : Assembly) (node : CILNode) : Except TypeError Ty :=
  match fuel with
  | 0 => Except.error TypeError.outOfFuel
  | fuel + 1 =>
    match node with
    | .Const cst => Except.ok cst.get_type
    | .BinOp lhs rhs op =>
      match op with
      | .Add | .Sub | .Mul =>
        match asm.get_node lhs, asm.get_node rhs with
        | some nl, some nr => do
          let lhsT ← get_type fuel sig locals asm nl
          let rhsT ← get_type fuel sig locals asm nr
          arithBinopType lhsT rhsT
        | _, _ => Except.error TypeError.badHandle
      | _ => Except.error (TypeError.unimplemented ("op:" ++ op.dbg))
    | .UnOp _ _ => Except.error (TypeError.unimplemented "")
    | .LdLoc _ => Except.error (TypeError.unimplemented "")
    | .LdLocA _ => Except.error (TypeError.unimplemented "")
    | .LdArg _ => Except.error (TypeError.unimplemented "")
    | .LdArgA _ => Except.error (TypeError.unimplemented "")
    | .Call _ _ => Except.error (TypeError.unimplemented "")
    | .IntCast _ _ _ => Except.error (TypeError.unimplemented "")
    | .FloatCast _ _ _ => Except.error (TypeError.unimplemented "")
    | .RefToPtr _ => Except.error (TypeError.unimplemented "")
    | .PtrCast _ _ => Except.error (TypeError.unimplemented "")
    | .LdFieldAdress _ _ => Except.error (TypeError.unimplemented "")
    | .LdField _ _ => Except.error (TypeError.unimplemented "")
    | .LdInd _ _ _ => Except.error (TypeError.unimplemented "")
    | .SizeOf _ => Except.error (TypeError.unimplemented "")
    | .GetException => Except.error (TypeError.unimplemented "")
    | .IsInst _ _ => Except.error (TypeError.unimplemented "")
    | .CheckedCast _ _ => Except.error (TypeError.unimplemented "")
    | .CallI _ _ _ => Except.error (TypeError.unimplemented "")
    | .LocAlloc _ => Except.error (TypeError.unimplemented "")
    | .LdStaticField _ => Except.error (TypeError.unimplemented "")
    | .LdFtn _ => Except.error (TypeError.unimplemented "")
    | .LdTypeToken _ => Except.error (TypeError.unimplemented "")
    | .LdLen _ => Except.error (TypeError.unimplemented "")
    | .LocAllocAlgined _ _ => Except.error (TypeError.unimplemented "")
    | .LdElelemRef _ _ => Except.error (TypeError.unimplemented "")
    | .UnboxAny _ _ => Except.error (TypeError.unimplemented "")

/-!
`Assembly::translate_type` (with `translate_class_ref`, `translate_sig` and
the generic-argument map), `asm_link.rs` lines 6-63.  `fuel` bounds the
recursion that the source performs through arena handles; every other aspect
follows the source arm by arm.  Note that the `Type::Ref` arm, exactly like
the `Type::Ptr` arm, rebuilds the translated type with `nptr`.
-/
mutual
def translate_type (fuel : Nat) (dst src : Assembly) (tpe : Ty) : Option (Ty × Assembly) :=
  match fuel with
  | 0 => none
  | fuel + 1 =>
    match tpe with
    | .Ptr inner => do
      let v ← src.get_type inner
      let (inner2, dst) ← translate_type fuel dst src v
      some (dst.nptr inner2)
    | .Ref inner => do
      let v ← src.get_type inner
      let (inner2, dst) ← translate_type fuel dst src v
      some (dst.nptr inner2)
    | .Int _ | .Float _ | .PlatformString | .PlatformChar | .Bool | .Void
    | .PlatformObject | .PlatformGeneric _ _ => some (tpe, dst)
    | .ClassRef class_ref => do
      let (c2, dst) ← translate_class_ref fuel dst src class_ref
      some (Ty.ClassRef c2, dst)
    | .PlatformArray elem dims => do
      let v ← src.get_type elem
      let (e2, dst) ← translate_type fuel dst src v
      let (e3, dst) := dst.alloc_type e2
      some (Ty.PlatformArray e3 dims, dst)
    | .FnPtr sig => do
      let v ← src.get_sig sig
      let (s2, dst) ← translate_sig fuel dst src v
      let (s3, dst) := dst.alloc_sig s2
      some (Ty.FnPtr s3, dst)
def translate_class_ref (fuel : Nat) (dst src : Assembly) (class_ref : Nat) :
    Option (Nat × Assembly) :=
  match fuel with
  | 0 => none
  | fuel + 1 => do
    let cref ← src.class_ref class_ref
    let s ← src.get_string cref.name
    let (name, dst) := dst.alloc_string s
    let (asm2, dst) ← (match cref.asm with
      | none => some ((none : Option Nat), dst)
      | some a => do
        let s2 ← src.get_string a
        let p := dst.alloc_string s2
        some (some p.1, p.2))
    let (generics, dst) ← translate_type_list fuel dst src cref.generics
    let p := dst.alloc_class_ref ⟨name, asm2, cref.is_valuetype, generics⟩
    some (p.1, p.2)
def translate_sig (fuel : Nat) (dst src : Assembly) (sig : FnSig) : Option (FnSig × Assembly) :=
  match fuel with
  | 0 => none
  | fuel + 1 => do
    let (ins, dst) ← translate_type_list fuel dst src sig.inputs
    let (out, dst) ← translate_type fuel dst src sig.output
    some (⟨ins, out⟩, dst)
def translate_type_list (fuel : Nat) (dst src : Assembly) (ts : List Ty) :
    Option (List Ty × Assembly) :=
  match fuel with
  | 0 => none
  | fuel + 1 =>
    match ts with
    | [] => some ([], dst)
    | t :: rest => do
      let (t2, dst) ← translate_type fuel dst src t
      let (rest2, dst) ← translate_type_list fuel dst src rest
      some (t2 :: rest2, dst)
end

/-- `Assembly::translate_field`, `asm_link.rs` lines 64-69.  Note that the
owner class reference is read from the source and allocated into the
destination as-is (a `clone`), without re-interning its nested handles. -/
def translate_field (fuel : Nat) (dst src : Assembly) (field : FieldDesc) :
    Option (FieldDesc × Assembly) := do
  let s ← src.get_string field.name
  let (name, dst) := dst.alloc_string s
  let cref ← src.class_ref field.owner
  let (owner, dst) := dst.alloc_class_ref cref
  let (tpe, dst) ← translate_type fuel dst src field.tpe
  some (⟨owner, name, tpe⟩, dst)

/-- `Assembly::translate_static_field`, `asm_link.rs` lines 70-79.  Like
`translate_field`, the owner class reference is cloned without re-interning. -/
def translate_static_field (fuel : Nat) (dst src : Assembly) (field : StaticFieldDesc) :
    Option (StaticFieldDesc × Assembly) := do
  let s ← src.get_string field.name
  let (name, dst) := dst.alloc_string s
  let cref ← src.class_ref field.owner
  let (owner, dst) := dst.alloc_class_ref cref
  let (tpe, dst) ← translate_type fuel dst src field.tpe
  some (⟨owner, name, tpe⟩, dst)

/-- `Assembly::translate_method_ref`, `asm_link.rs` lines 80-91.  The owner
class reference is cloned without re-interning, as in `translate_field`. -/
def translate_method_ref (fuel : Nat) (dst src : Assembly) (method_ref : MethodRef) :
    Option (MethodRef × Assembly) := do
  let cref ← src.class_ref method_ref.cls
  let (cls, dst) := dst.alloc_class_ref cref
  let s ← src.get_string method_ref.name
  let (name, dst) := dst.alloc_string s
  let sv ← src.get_sig method_ref.sig
  let (s2, dst) ← translate_sig fuel dst src sv
  let (sigIdx, dst) := dst.alloc_sig s2
  let (generics, dst) ← translate_type_list fuel dst src method_ref.generics
  some (⟨cls, name, sigIdx, method_ref.kind, generics⟩, dst)

/-!
`Assembly::translate_node`, `asm_link.rs` lines 92-282, with
`translate_node_handles` modelling the argument maps.  Base variants
(including `Const`) are returned unchanged.
-/
mutual
def translate_node (fuel : Nat) (dst src : Assembly) (node : CILNode) :
    Option (CILNode × Assembly) :=
  match fuel with
  | 0 => none
  | fuel + 1 =>
    match node with
    | .LdLoc _ | .LdLocA _ | .LdArg _ | .LdArgA _ | .Const _ => some (node, dst)
    | .BinOp a b op => do
      let av ← src.get_node a
      let (a2, dst) ← translate_node fuel dst src av
      let bv ← src.get_node b
      let (b2, dst) ← translate_node fuel dst src bv
      let (ai, dst) := dst.alloc_node a2
      let (bi, dst) := dst.alloc_node b2
      some (.BinOp ai bi op, dst)
    | .UnOp a op => do
      let av ← src.get_node a
      let (a2, dst) ← translate_node fuel dst src av
      let (ai, dst) := dst.alloc_node a2
      some (.UnOp ai op, dst)
    | .Call mref args => do
      let mv ← src.get_mref mref
      let (m2, dst) ← translate_method_ref fuel dst src mv
      let (mi, dst) := dst.alloc_methodref m2
      let (args2, dst) ← translate_node_handles fuel dst src args
      some (.Call mi args2, dst)
    | .IntCast input target extend => do
      let iv ← src.get_node input
      let (i2, dst) ← translate_node fuel dst src iv
      let (ii, dst) := dst.alloc_node i2
      some (.IntCast ii target extend, dst)
    | .FloatCast input target is_signed => do
      let iv ← src.get_node input
      let (i2, dst) ← translate_node fuel dst src iv
      let (ii, dst) := dst.alloc_node i2
      some (.FloatCast ii target is_signed, dst)
    | .RefToPtr input => do
      let iv ← src.get_node input
      let (i2, dst) ← translate_node fuel dst src iv
      let (ii, dst) := dst.alloc_node i2
      some (.RefToPtr ii, dst)
    | .PtrCast input res => do
      let iv ← src.get_node input
      let (i2, dst) ← translate_node fuel dst src iv
      let (ii, dst) := dst.alloc_node i2
      let (res2, dst) ← (match res with
        | PtrCastRes.Ptr t => do
          let v ← src.get_type t
          let (t2, dst) ← translate_type fuel dst src v
          let p := dst.alloc_type t2
          some (PtrCastRes.Ptr p.1, p.2)
        | PtrCastRes.Ref t => do
          let v ← src.get_type t
          let (t2, dst) ← translate_type fuel dst src v
          let p := dst.alloc_type t2
          some (PtrCastRes.Ref p.1, p.2)
        | PtrCastRes.FnPtr s => do
          let v ← src.get_sig s
          let (s2, dst) ← translate_sig fuel dst src v
          let p := dst.alloc_sig s2
          some (PtrCastRes.FnPtr p.1, p.2)
        | PtrCastRes.USize => some (PtrCastRes.USize, dst)
        | PtrCastRes.ISize => some (PtrCastRes.ISize, dst))
      some (.PtrCast ii res2, dst)
    | .LdFieldAdress addr field => do
      let fv ← src.get_field field
      let (f2, dst) ← translate_field fuel dst src fv
      let (fi, dst) := dst.alloc_field f2
      let av ← src.get_node addr
      let (a2, dst) ← translate_node fuel dst src av
      let (ai, dst) := dst.alloc_node a2
      some (.LdFieldAdress ai fi, dst)
    | .LdField addr field => do
      let fv ← src.get_field field
      let (f2, dst) ← translate_field fuel dst src fv
      let (fi, dst) := dst.alloc_field f2
      let av ← src.get_node addr
      let (a2, dst) ← translate_node fuel dst src av
      let (ai, dst) := dst.alloc_node a2
      some (.LdField ai fi, dst)
    | .LdInd addr tpe volitale => do
      let av ← src.get_node addr
      let (a2, dst) ← translate_node fuel dst src av
      let (ai, dst) := dst.alloc_node a2
      let tv ← src.get_type tpe
      let (t2, dst) ← translate_type fuel dst src tv
      let (ti, dst) := dst.alloc_type t2
      some (.LdInd ai ti volitale, dst)
    | .SizeOf tpe => do
      let tv ← src.get_type tpe
      let (t2, dst) ← translate_type fuel dst src tv
      let (ti, dst) := dst.alloc_type t2
      some (.SizeOf ti, dst)
    | .GetException => some (.GetException, dst)
    | .IsInst obj tpe => do
      let ov ← src.get_node obj
      let (o2, dst) ← translate_node fuel dst src ov
      let (oi, dst) := dst.alloc_node o2
      let tv ← src.get_type tpe
      let (t2, dst) ← translate_type fuel dst src tv
      let (ti, dst) := dst.alloc_type t2
      some (.IsInst oi ti, dst)
    | .CheckedCast obj tpe => do
      let ov ← src.get_node obj
      let (o2, dst) ← translate_node fuel dst src ov
      let (oi, dst) := dst.alloc_node o2
      let tv ← src.get_type tpe
      let (t2, dst) ← translate_type fuel dst src tv
      let (ti, dst) := dst.alloc_type t2
      some (.CheckedCast oi ti, dst)
    | .CallI fnptr sig args => do
      let fv ← src.get_node fnptr
      let (f2, dst) ← translate_node fuel dst src fv
      let (fi, dst) := dst.alloc_node f2
      let sv ← src.get_sig sig
      let (s2, dst) ← translate_sig fuel dst src sv
      let (si, dst) := dst.alloc_sig s2
      let (args2, dst) ← translate_node_handles fuel dst src args
      some (.CallI fi si args2, dst)
    | .LocAlloc size => do
      let sv ← src.get_node size
      let (s2, dst) ← translate_node fuel dst src sv
      let (si, dst) := dst.alloc_node s2
      some (.LocAlloc si, dst)
    | .LdStaticField sfld => do
      let fv ← src.get_static_field sfld
      let (f2, dst) ← translate_static_field fuel dst src fv
      let (fi, dst) := dst.alloc_sfld f2
      some (.LdStaticField fi, dst)
    | .LdFtn mref => do
      let mv ← src.get_mref mref
      let (m2, dst) ← translate_method_ref fuel dst src mv
      let (mi, dst) := dst.alloc_methodref m2
      some (.LdFtn mi, dst)
    | .LdTypeToken tpe => do
      let tv ← src.get_type tpe
      let (t2, dst) ← translate_type fuel dst src tv
      let (ti, dst) := dst.alloc_type t2
      some (.LdTypeToken ti, dst)
    | .LdLen len => do
      let lv ← src.get_node len
      let (l2, dst) ← translate_node fuel dst src lv
      let (li, dst) := dst.alloc_node l2
      some (.LdLen li, dst)
    | .LocAllocAlgined tpe align => do
      let tv ← src.get_type tpe
      let (t2, dst) ← translate_type fuel dst src tv
      let (ti, dst) := dst.alloc_type t2
      some (.LocAllocAlgined ti align, dst)
    | .LdElelemRef array index => do
      let av ← src.get_node array
      let (a2, dst) ← translate_node fuel dst src av
      let (ai, dst) := dst.alloc_node a2
      let iv ← src.get_node index
      let (i2, dst) ← translate_node fuel dst src iv
      let (ii, dst) := dst.alloc_node i2
      some (.LdElelemRef ai ii, dst)
    | .UnboxAny obj tpe => do
      let ov ← src.get_node obj
      let (o2, dst) ← translate_node fuel dst src ov
      let (oi, dst) := dst.alloc_node o2
      let tv ← src.get_type tpe
      let (t2, dst) ← translate_type fuel dst src tv
      let (ti, dst) := dst.alloc_type t2
      some (.UnboxAny oi ti, dst)
def translate_node_handles (fuel : Nat) (dst src : Assembly) (hs : List Nat) :
    Option (List Nat × Assembly) :=
  match fuel with
  | 0 => none
  | fuel + 1 =>
    match hs with
    | [] => some ([], dst)
    | h :: rest => do
      let v ← src.get_node h
      let (n2, dst) ← translate_node fuel dst src v
      let (i, dst) := dst.alloc_node n2
      let (rest2, dst) ← translate_node_handles fuel dst src rest
      some (i :: rest2, dst)
end

/-- `Assembly::translate_root`, `asm_link.rs` lines 283-449, arm by arm. -/
def translate_root (fuel : Nat) (dst src : Assembly) (root : CILRoot) :
    Option (CILRoot × Assembly) :=
  match root with
  | .StLoc loc node => do
    let nv ← src.get_node node
    let (n2, dst) ← translate_node fuel dst src nv
    let (ni, dst) := dst.alloc_node n2
    some (.StLoc loc ni, dst)
  | .StArg loc node => do
    let nv ← src.get_node node
    let (n2, dst) ← translate_node fuel dst src nv
    let (ni, dst) := dst.alloc_node n2
    some (.StArg loc ni, dst)
  | .Ret node => do
    let nv ← src.get_node node
    let (n2, dst) ← translate_node fuel dst src nv
    let (ni, dst) := dst.alloc_node n2
    some (.Ret ni, dst)
  | .Pop node => do
    let nv ← src.get_node node
    let (n2, dst) ← translate_node fuel dst src nv
    let (ni, dst) := dst.alloc_node n2
    some (.Pop ni, dst)
  | .Throw node => do
    let nv ← src.get_node node
    let (n2, dst) ← translate_node fuel dst src nv
    let (ni, dst) := dst.alloc_node n2
    some (.Throw ni, dst)
  | .Branch target sub_target cond => do
    let (cond2, dst) ← (match cond with
      | none => some ((none : Option BranchCond), dst)
      | some (BranchCond.True c) => do
        let cv ← src.get_node c
        let (c2, dst) ← translate_node fuel dst src cv
        let p := dst.alloc_node c2
        some (some (BranchCond.True p.1), p.2)
      | some (BranchCond.False c) => do
        let cv ← src.get_node c
        let (c2, dst) ← translate_node fuel dst src cv
        let p := dst.alloc_node c2
        some (some (BranchCond.False p.1), p.2)
      | some (BranchCond.Eq a b) => do
        let av ← src.get_node a
        let (a2, dst) ← translate_node fuel dst src av
        let (ai, dst) := dst.alloc_node a2
        let bv ← src.get_node b
        let (b2, dst) ← translate_node fuel dst src bv
        let (bi, dst) := dst.alloc_node b2
        some (some (BranchCond.Eq ai bi), dst)
      | some (BranchCond.Ne a b) => do
        let av ← src.get_node a
        let (a2, dst) ← translate_node fuel dst src av
        let (ai, dst) := dst.alloc_node a2
        let bv ← src.get_node b
        let (b2, dst) ← translate_node fuel dst src bv
        let (bi, dst) := dst.alloc_node b2
        some (some (BranchCond.Ne ai bi), dst)
      | some (BranchCond.Lt a b kind) => do
        let av ← src.get_node a
        let (a2, dst) ← translate_node fuel dst src av
        let (ai, dst) := dst.alloc_node a2
        let bv ← src.get_node b
        let (b2, dst) ← translate_node fuel dst src bv
        let (bi, dst) := dst.alloc_node b2
        some (some (BranchCond.Lt ai bi kind), dst)
      | some (BranchCond.Gt a b kind) => do
        let av ← src.get_node a
        let (a2, dst) ← translate_node fuel dst src av
        let (ai, dst) := dst.alloc_node a2
        let bv ← src.get_node b
        let (b2, dst) ← translate_node fuel dst src bv
        let (bi, dst) := dst.alloc_node b2
        some (some (BranchCond.Gt ai bi kind), dst))
    some (.Branch target sub_target cond2, dst)
  | .VoidRet => some (.VoidRet, dst)
  | .Break => some (.Break, dst)
  | .Nop => some (.Nop, dst)
  | .ReThrow => some (.ReThrow, dst)
  | .SourceFileInfo line_start line_len col_start col_len file => do
    let s ← src.get_string file
    let (fi, dst) := dst.alloc_string s
    some (.SourceFileInfo line_start line_len col_start col_len fi, dst)
  | .SetField field addr val => do
    let fv ← src.get_field field
    let (f2, dst) ← translate_field fuel dst src fv
    let (fi, dst) := dst.alloc_field f2
    let av ← src.get_node addr
    let (a2, dst) ← translate_node fuel dst src av
    let (ai, dst) := dst.alloc_node a2
    let vv ← src.get_node val
    let (v2, dst) ← translate_node fuel dst src vv
    let (vi, dst) := dst.alloc_node v2
    some (.SetField fi ai vi, dst)
  | .Call mref args => do
    let mv ← src.get_mref mref
    let (m2, dst) ← translate_method_ref fuel dst src mv
    let (mi, dst) := dst.alloc_methodref m2
    let (args2, dst) ← translate_node_handles fuel dst src args
    some (.Call mi args2, dst)
  | .StInd addr val tpe vol => do
    let av ← src.get_node addr
    let (a2, dst) ← translate_node fuel dst src av
    let (ai, dst) := dst.alloc_node a2
    let vv ← src.get_node val
    let (v2, dst) ← translate_node fuel dst src vv
    let (vi, dst) := dst.alloc_node v2
    let (t2, dst) ← translate_type fuel dst src tpe
    some (.StInd ai vi t2 vol, dst)
  | .InitBlk d v c => do
    let dv ← src.get_node d
    let (d2, dst) ← translate_node fuel dst src dv
    let (di, dst) := dst.alloc_node d2
    let vv ← src.get_node v
    let (v2, dst) ← translate_node fuel dst src vv
    let (vi, dst) := dst.alloc_node v2
    let cv ← src.get_node c
    let (c2, dst) ← translate_node fuel dst src cv
    let (ci, dst) := dst.alloc_node c2
    some (.InitBlk di vi ci, dst)
  | .CpBlk d s l => do
    let dv ← src.get_node d
    let (d2, dst) ← translate_node fuel dst src dv
    let (di, dst) := dst.alloc_node d2
    let sv ← src.get_node s
    let (s2, dst) ← translate_node fuel dst src sv
    let (si, dst) := dst.alloc_node s2
    let lv ← src.get_node l
    let (l2, dst) ← translate_node fuel dst src lv
    let (li, dst) := dst.alloc_node l2
    some (.CpBlk di si li, dst)
  | .CallI fnptr sig args => do
    let fv ← src.get_node fnptr
    let (f2, dst) ← translate_node fuel dst src fv
    let (fi, dst) := dst.alloc_node f2
    let sv ← src.get_sig sig
    let (s2, dst) ← translate_sig fuel dst src sv
    let (si, dst) := dst.alloc_sig s2
    let (args2, dst) ← translate_node_handles fuel dst src args
    some (.CallI fi si args2, dst)
  | .ExitSpecialRegion target source => some (.ExitSpecialRegion target source, dst)
  | .SetStaticField field val => do
    let vv ← src.get_node val
    let (v2, dst) ← translate_node fuel dst src vv
    let (vi, dst) := dst.alloc_node v2
    let fv ← src.get_static_field field
    let (f2, dst) ← translate_static_field fuel dst src fv
    let (fi, dst) := dst.alloc_sfld f2
    some (.SetStaticField fi vi, dst)

/-!
`Assembly::translate_block`, `asm_link.rs` lines 450-466: the roots are
translated and re-allocated in order, then the optional handler blocks are
translated recursively, and the block is rebuilt with the same `block_id`.
-/
mutual
def translate_block (fuel : Nat) (dst src : Assembly) (block : BasicBlock) :
    Option (BasicBlock × Assembly) :=
  match fuel with
  | 0 => none
  | fuel + 1 => do
    let (roots2, dst) ← translate_root_handles fuel dst src block.roots
    let (handler2, dst) ← (match block.handler with
      | none => some ((none : Option (List BasicBlock)), dst)
      | some blocks => do
        let (bs, dst) ← translate_block_list fuel dst src blocks
        some (some bs, dst))
    some (⟨roots2, block.block_id, handler2⟩, dst)
def translate_block_list (fuel : Nat) (dst src : Assembly) (bs : List BasicBlock) :
    Option (List BasicBlock × Assembly) :=
  match fuel with
  | 0 => none
  | fuel + 1 =>
    match bs with
    | [] => some ([], dst)
    | b :: rest => do
      let (b2, dst) ← translate_block fuel dst src b
      let (rest2, dst) ← translate_block_list fuel dst src rest
      some (b2 :: rest2, dst)
def translate_root_handles (fuel : Nat) (dst src : Assembly) (hs : List Nat) :
    Option (List Nat × Assembly) :=
  match fuel with
  | 0 => none
  | fuel + 1 =>
    match hs with
    | [] => some ([], dst)
    | h :: rest => do
      let v ← src.get_root h
      let (r2, dst) ← translate_root fuel dst src v
      let (i, dst) := dst.alloc_root r2
      let (rest2, dst) ← translate_root_handles fuel dst src rest
      some (i :: rest2, dst)
end

/-- The per-local map inside `translate_method_def`'s `MethodBody` arm: each
local's type is read from the source, translated, the optional name
re-interned, and the type allocated into the destination. -/
def translate_locals (fuel : Nat) (dst src : Assembly) (ls : List (Option Nat × Nat)) :
    Option (List (Option Nat × Nat) × Assembly) :=
  match ls with
  | [] => some ([], dst)
  | (name, tpe) :: rest => do
    let tv ← src.get_type tpe
    let (t2, dst) ← translate_type fuel dst src tv
    let (name2, dst) ← (match name with
      | none => some ((none : Option Nat), dst)
      | some n => do
        let s ← src.get_string n
        let p := dst.alloc_string s
        some (some p.1, p.2))
    let (ti, dst) := dst.alloc_type t2
    let (rest2, dst) ← translate_locals fuel dst src rest
    some ((name2, ti) :: rest2, dst)

/-- The argument-name map inside `translate_method_def`: each optional name is
re-interned into the destination. -/
def translate_arg_names (dst src : Assembly) (ns : List (Option Nat)) :
    Option (List (Option Nat) × Assembly) :=
  match ns with
  | [] => some ([], dst)
  | arg :: rest => do
    let (arg2, dst) ← (match arg with
      | none => some ((none : Option Nat), dst)
      | some n => do
        let s ← src.get_string n
        let p := dst.alloc_string s
        some (some p.1, p.2))
    let (rest2, dst) ← translate_arg_names dst src rest
    some (arg2 :: rest2, dst)

/-- `Assembly::translate_method_def`, `asm_link.rs` lines 467-522: the owning
class reference is translated and resolved to a definition handle
(`class_ref_to_def(class).unwrap()`, a `none` result aborting the call) before
the name, signature, implementation and argument names are processed. -/
def translate_method_def (fuel : Nat) (dst src : Assembly) (d : MethodDef) :
    Option (MethodDef × Assembly) :=
  match fuel with
  | 0 => none
  | fuel + 1 => do
    let (clsRef, dst) ← translate_class_ref fuel dst src d.cls
    let cls ← dst.class_ref_to_def clsRef
    let s ← src.get_string d.name
    let (name, dst) := dst.alloc_string s
    let sv ← src.get_sig d.sig
    let (s2, dst) ← translate_sig fuel dst src sv
    let (sigIdx, dst) := dst.alloc_sig s2
    let (impl2, dst) ← (match d.implementation with
      | .MethodBody blocks locals => do
        let (blocks2, dst) ← translate_block_list fuel dst src blocks
        let (locals2, dst) ← translate_locals fuel dst src locals
        some (MethodImpl.MethodBody blocks2 locals2, dst)
      | .Extern lib preserve_errno => do
        let s3 ← src.get_string lib
        let p := dst.alloc_string s3
        some (MethodImpl.Extern p.1 preserve_errno, p.2)
      | .AliasFor mref => do
        let mv ← src.get_mref mref
        let (m2, dst) ← translate_method_ref fuel dst src mv
        let p := dst.alloc_methodref m2
        some (MethodImpl.AliasFor p.1, p.2)
      | .Missing => some (MethodImpl.Missing, dst))
    let (arg_names2, dst) ← translate_arg_names dst src d.arg_names
    some (⟨d.access, cls, name, sigIdx, d.kind, impl2, arg_names2⟩, dst)

/-- The per-field map inside `translate_class_def` (`asm_link.rs` lines
528-536): the field's inline type is translated, but the name that is
re-interned is `def.name()` — the owning class's own name (`cls_name` here) —
not the field's declared name, which is discarded. -/
def translate_def_fields (fuel : Nat) (dst src : Assembly) (cls_name : Nat)
    (fs : List (Ty × Nat × Option Nat)) : Option (List (Ty × Nat × Option Nat) × Assembly) :=
  match fs with
  | [] => some ([], dst)
  | (tpe, _, offset) :: rest => do
    let (t2, dst) ← translate_type fuel dst src tpe
    let s ← src.get_string cls_name
    let (nm, dst) := dst.alloc_string s
    let (rest2, dst) ← translate_def_fields fuel dst src cls_name rest
    some ((t2, nm, offset) :: rest2, dst)

/-- The per-static-field map inside `translate_class_def` (`asm_link.rs` lines
537-545); like `translate_def_fields` it re-interns `def.name()` in place of
the field's declared name. -/
def translate_def_static_fields (fuel : Nat) (dst src : Assembly) (cls_name : Nat)
    (fs : List (Ty × Nat × Bool)) : Option (List (Ty × Nat × Bool) × Assembly) :=
  match fs with
  | [] => some ([], dst)
  | (tpe, _, thread_local) :: rest => do
    let (t2, dst) ← translate_type fuel dst src tpe
    let s ← src.get_string cls_name
    let (nm, dst) := dst.alloc_string s
    let (rest2, dst) ← translate_def_static_fields fuel dst src cls_name rest
    some ((t2, nm, thread_local) :: rest2, dst)

/-- The per-method map inside `translate_class_def`: each method definition is
read from the source, translated, and registered with `new_method`. -/
def translate_def_methods (fuel : Nat) (dst src : Assembly) (ms : List Nat) :
    Option (List Nat × Assembly) :=
  match ms with
  | [] => some ([], dst)
  | m :: rest => do
    let md ← src.method_def m
    let (md2, dst) ← translate_method_def fuel dst src md
    let (mi, dst) := dst.new_method md2
    let (rest2, dst) ← translate_def_methods fuel dst src rest
    some (mi :: rest2, dst)

/-- `Assembly::translate_class_def`, `asm_link.rs` lines 523-565. -/
def translate_class_def (fuel : Nat) (dst src : Assembly) (d : ClassDef) :
    Option (ClassDef × Assembly) :=
  match fuel with
  | 0 => none
  | fuel + 1 => do
    let s ← src.get_string d.name
    let (name, dst) := dst.alloc_string s
    let (ext, dst) ← (match d.extends_cref with
      | none => some ((none : Option Nat), dst)
      | some cref => do
        let (c2, dst) ← translate_class_ref fuel dst src cref
        some (some c2, dst))
    let (fields2, dst) ← translate_def_fields fuel dst src d.name d.fields
    let (sfields2, dst) ← translate_def_static_fields fuel dst src d.name d.static_fields
    let (methods2, dst) ← translate_def_methods fuel dst src d.methods
    some (⟨name, d.is_valuetype, d.generics, ext, fields2, sfields2, methods2,
      d.access, d.explict_size⟩, dst)

/-- The legacy type grammar (`crate::r#type::Type`, aliased `V1Type` in
`cilnode.rs`).  Modelled from the spec and the variants destructured by
`CILNode::from_v1` (the defining file is not under `src/`); `DelegatePtr`
carries its signature inline. -/
inductive V1Type where
  | Void | Bool
  | U8 | U16 | U32 | U64 | USize
  | I8 | I16 | I32 | I64 | ISize
  | F32 | F64
  | Ptr (inner : V1Type)
  | ManagedReference (inner : V1Type)
  | DelegatePtr (inputs : List V1Type) (output : V1Type)

/-- The legacy function signature (inputs and output as legacy types).
Modelled from the spec; not under `src/`. -/
structure V1FnSig where
  inputs : List V1Type
  output : V1Type

/-- The legacy class reference (`DotnetTypeRef`): name, optional assembly
name, value-type flag, generic arguments.  Modelled from the spec; not under
`src/`. -/
structure V1ClassRef where
  name : String
  asm : Option String
  valuetype : Bool
  generics : List V1Type

/-- The legacy field descriptor: owner class, name, type.  Modelled from the
spec; not under `src/`. -/
structure V1FieldDesc where
  owner : V1ClassRef
  name : String
  tpe : V1Type

/-- The legacy static-field descriptor.  Modelled from the spec; not under
`src/`. -/
structure V1StaticFieldDesc where
  owner : V1ClassRef
  name : String
  tpe : V1Type

/-- The legacy call site: optional owner class, name, signature, static flag,
generic arguments.  Modelled from the spec and the accessors used by
`from_v1` (`site.class()`, `site.name()`, `site.signature()`,
`site.is_static()`, `site.generics()`); not under `src/`. -/
structure CallSite where
  cls : Option V1ClassRef
  name : String
  signature : V1FnSig
  is_static : Bool
  generics : List V1Type

/-!
`Type::from_v1`: upgrade of a legacy type into the interned form, allocating
nested types and signatures.  Modelled from the spec (each legacy type maps to
the corresponding current-form type); not under `src/`.
-/
mutual
def type_from_v1 (t : V1Type) (asm : Assembly) : Ty × Assembly :=
  match t with
  | .Void => (Ty.Void, asm)
  | .Bool => (Ty.Bool, asm)
  | .U8 => (Ty.Int IntTy.U8, asm)
  | .U16 => (Ty.Int IntTy.U16, asm)
  | .U32 => (Ty.Int IntTy.U32, asm)
  | .U64 => (Ty.Int IntTy.U64, asm)
  | .USize => (Ty.Int IntTy.USize, asm)
  | .I8 => (Ty.Int IntTy.I8, asm)
  | .I16 => (Ty.Int IntTy.I16, asm)
  | .I32 => (Ty.Int IntTy.I32, asm)
  | .I64 => (Ty.Int IntTy.I64, asm)
  | .ISize => (Ty.Int IntTy.ISize, asm)
  | .F32 => (Ty.Float FloatTy.F32, asm)
  | .F64 => (Ty.Float FloatTy.F64, asm)
  | .Ptr inner =>
    let (t2, asm) := type_from_v1 inner asm
    let p := asm.alloc_type t2
    (Ty.Ptr p.1, p.2)
  | .ManagedReference inner =>
    let (t2, asm) := type_from_v1 inner asm
    let p := asm.alloc_type t2
    (Ty.Ref p.1, p.2)
  | .DelegatePtr inputs output =>
    let (ins, asm) := type_list_from_v1 inputs asm
    let (out, asm) := type_from_v1 output asm
    let p := asm.alloc_sig ⟨ins, out⟩
    (Ty.FnPtr p.1, p.2)
def type_list_from_v1 (ts : List V1Type) (asm : Assembly) : List Ty × Assembly :=
  match ts with
  | [] => ([], asm)
  | t :: rest =>
    let (t2, asm) := type_from_v1 t asm
    let (rest2, asm) := type_list_from_v1 rest asm
    (t2 :: rest2, asm)
end

/-- `FnSig::from_v1`.  Modelled from the spec; not under `src/`. -/
def sig_from_v1 (s : V1FnSig) (asm : Assembly) : FnSig × Assembly :=
  let (ins, asm) := type_list_from_v1 s.inputs asm
  let (out, asm) := type_from_v1 s.output asm
  (⟨ins, out⟩, asm)

/-- `ClassRef::from_v1`: re-interns the name and optional assembly name and
upgrades the generic arguments, returning the class-reference value.  Modelled
from the spec; not under `src/`. -/
def class_ref_from_v1 (c : V1ClassRef) (asm : Assembly) : ClassRef × Assembly :=
  let (name, asm) := asm.alloc_string c.name
  let (asm2, asm) :=
    match c.asm with
    | none => ((none : Option Nat), asm)
    | some s =>
      let p := asm.alloc_string s
      (some p.1, p.2)
  let (generics, asm) := type_list_from_v1 c.generics asm
  (⟨name, asm2, c.valuetype, generics⟩, asm)

/-- `FieldDesc::from_v1`.  Modelled from the spec; not under `src/`. -/
def field_desc_from_v1 (f : V1FieldDesc) (asm : Assembly) : FieldDesc × Assembly :=
  let (owner_ref, asm) := class_ref_from_v1 f.owner asm
  let (owner, asm) := asm.alloc_class_ref owner_ref
  let (name, asm) := asm.alloc_string f.name
  let (tpe, asm) := type_from_v1 f.tpe asm
  (⟨owner, name, tpe⟩, asm)

/-- `StaticFieldDesc::from_v1`.  Modelled from the spec; not under `src/`. -/
def sfld_from_v1 (f : V1StaticFieldDesc) (asm : Assembly) : StaticFieldDesc × Assembly :=
  let (owner_ref, asm) := class_ref_from_v1 f.owner asm
  let (owner, asm) := asm.alloc_class_ref owner_ref
  let (name, asm) := asm.alloc_string f.name
  let (tpe, asm) := type_from_v1 f.tpe asm
  (⟨owner, name, tpe⟩, asm)

/-- The legacy node grammar (`crate::cil_node::CILNode`, aliased `V1Node`).
The enumerated constructors are exactly the arms handled by
`CILNode::from_v1` in `cilnode.rs` (boxed payloads flattened).  `Unhandled`
stands for the legacy opcodes outside that handled set — the ones the
`_ => todo!("v1:{v1:?}")` arm rejects; its `desc` models the variant's
`Debug` rendering.  Modelled from the spec; the legacy grammar's defining
file is not under `src/`. -/
inductive V1Node where
  | LDArg (n : Nat)
  | LDLoc (n : Nat)
  | LDArgA (n : Nat)
  | LDLocA (n : Nat)
  | LDIndBool (ptr : V1Node)
  | LDIndU8 (ptr : V1Node)
  | LDIndU16 (ptr : V1Node)
  | LDIndU32 (ptr : V1Node)
  | LDIndU64 (ptr : V1Node)
  | LDIndUSize (ptr : V1Node)
  | LDIndI8 (ptr : V1Node)
  | LDIndI16 (ptr : V1Node)
  | LDIndI32 (ptr : V1Node)
  | LDIndI64 (ptr : V1Node)
  | LDIndISize (ptr : V1Node)
  | LDIndF32 (ptr : V1Node)
  | LDIndF64 (ptr : V1Node)
  | LdObj (ptr : V1Node) (obj : V1Type)
  | LDIndPtr (ptr : V1Node) (loaded_ptr : V1Type)
  | ZeroExtendToU64 (inner : V1Node)
  | SignExtendToU64 (inner : V1Node)
  | ZeroExtendToUSize (inner : V1Node)
  | SignExtendToUSize (inner : V1Node)
  | ConvU8 (inner : V1Node)
  | ConvU16 (inner : V1Node)
  | ConvU32 (inner : V1Node)
  | SignExtendToI64 (inner : V1Node)
  | ZeroExtendToISize (inner : V1Node)
  | SignExtendToISize (inner : V1Node)
  | ConvI8 (inner : V1Node)
  | ConvI16 (inner : V1Node)
  | ConvI32 (inner : V1Node)
  | ConvF32 (inner : V1Node)
  | ConvF64 (inner : V1Node)
  | ConvF64Un (inner : V1Node)
  | MRefToRawPtr (inner : V1Node)
  | CastPtr (val : V1Node) (new_ptr : V1Type)
  | Add (lhs rhs : V1Node)
  | Sub (lhs rhs : V1Node)
  | Mul (lhs rhs : V1Node)
  | Eq (lhs rhs : V1Node)
  | Or (lhs rhs : V1Node)
  | XOr (lhs rhs : V1Node)
  | And (lhs rhs : V1Node)
  | LtUn (lhs rhs : V1Node)
  | Lt (lhs rhs : V1Node)
  | GtUn (lhs rhs : V1Node)
  | Gt (lhs rhs : V1Node)
  | Rem (lhs rhs : V1Node)
  | RemUn (lhs rhs : V1Node)
  | Shl (lhs rhs : V1Node)
  | Shr (lhs rhs : V1Node)
  | ShrUn (lhs rhs : V1Node)
  | Div (lhs rhs : V1Node)
  | DivUn (lhs rhs : V1Node)
  | Not (val : V1Node)
  | Neg (val : V1Node)
  | LDField (addr : V1Node) (field : V1FieldDesc)
  | LDFieldAdress (addr : V1Node) (field : V1FieldDesc)
  | Call (site : CallSite) (args : List V1Node)
  | CallVirt (site : CallSite) (args : List V1Node)
  | NewObj (site : CallSite) (args : List V1Node)
  | GetException
  | LdStr (s : String)
  | SizeOf (tpe : V1Type)
  | LDTypeToken (tpe : V1Type)
  | LdcU64 (v : Nat)
  | LdcU32 (v : Nat)
  | LdcU16 (v : Nat)
  | LdcU8 (v : Nat)
  | LdcI64 (v : Int)
  | LdcI32 (v : Int)
  | LdcI16 (v : Int)
  | LdcI8 (v : Int)
  | LdFalse
  | LdTrue
  | LdcF64 (bits : Nat)
  | LdcF32 (bits : Nat)
  | IsInst (val : V1Node) (tpe : V1ClassRef)
  | CheckedCast (val : V1Node) (tpe : V1ClassRef)
  | CallI (sig : V1FnSig) (ptr : V1Node) (args : List V1Node)
  | LocAlloc (size : V1Node)
  | LocAllocAligned (tpe : V1Type) (align : Nat)
  | LDStaticField (sfld : V1StaticFieldDesc)
  | LDFtn (site : CallSite)
  | Volatile (inner : V1Node)
  | LDLen (arr : V1Node)
  | LDElelemRef (arr : V1Node) (idx : V1Node)
  | UnboxAny (obj : V1Node) (tpe : V1Type)
  | Unhandled (desc : String)

/-- Failure modes of the embedded `from_v1`.  `unimplemented` models the
`todo!("v1:{v1:?}")` arm (an unimplemented-construct outcome naming the
variant); `violation` models the `panic!`/`assert!` aborts inside handled
arms (contract violations). -/
inductive UpgradeError where
  | unimplemented (desc : String)
  | violation (desc : String)
deriving DecidableEq

/-!
`CILNode::from_v1` (`cilnode.rs` lines 216-853): the legacy upgrade pass, arm
by arm.  `from_v1_args` models the argument maps (`from_v1` then
`alloc_node` per element).  `panic!()` inside the `Volatile` arm is modelled
as `.violation "explicit panic"`, the `CastPtr` non-pointer panic as
`.violation` with its message, the `assert!`s in `CallVirt`/`NewObj` as
`.violation` with the assertion message, and the trailing
`_ => todo!("v1:{v1:?}")` arm as `.unimplemented` naming the variant.
-/
mutual
def from_v1 (v1 : V1Node) (asm : Assembly) : Except UpgradeError (CILNode × Assembly) :=
  match v1 with
  | .LDArg n => Except.ok (CILNode.LdArg n, asm)
  | .LDLoc n => Except.ok (CILNode.LdLoc n, asm)
  | .LDArgA n => Except.ok (CILNode.LdArgA n, asm)
  | .LDLocA n => Except.ok (CILNode.LdLocA n, asm)
  | .LDIndBool ptr => do
    let (p, asm) ← from_v1 ptr asm
    let (ai, asm) := asm.alloc_node p
    let (ti, asm) := asm.alloc_type Ty.Bool
    Except.ok (CILNode.LdInd ai ti false, asm)
  | .LDIndU8 ptr => do
    let (p, asm) ← from_v1 ptr asm
    let (ai, asm) := asm.alloc_node p
    let (ti, asm) := asm.alloc_type (Ty.Int IntTy.U8)
    Except.ok (CILNode.LdInd ai ti false, asm)
  | .LDIndU16 ptr => do
    let (p, asm) ← from_v1 ptr asm
    let (ai, asm) := asm.alloc_node p
    let (ti, asm) := asm.alloc_type (Ty.Int IntTy.U16)
    Except.ok (CILNode.LdInd ai ti false, asm)
  | .LDIndU32 ptr => do
    let (p, asm) ← from_v1 ptr asm
    let (ai, asm) := asm.alloc_node p
    let (ti, asm) := asm.alloc_type (Ty.Int IntTy.U32)
    Except.ok (CILNode.LdInd ai ti false, asm)
  | .LDIndU64 ptr => do
    let (p, asm) ← from_v1 ptr asm
    let (ai, asm) := asm.alloc_node p
    let (ti, asm) := asm.alloc_type (Ty.Int IntTy.U64)
    Except.ok (CILNode.LdInd ai ti false, asm)
  | .LDIndUSize ptr => do
    let (p, asm) ← from_v1 ptr asm
    let (ai, asm) := asm.alloc_node p
    let (ti, asm) := asm.alloc_type (Ty.Int IntTy.USize)
    Except.ok (CILNode.LdInd ai ti false, asm)
  | .LDIndI8 ptr => do
    let (p, asm) ← from_v1 ptr asm
    let (ai, asm) := asm.alloc_node p
    let (ti, asm) := asm.alloc_type (Ty.Int IntTy.I8)
    Except.ok (CILNode.LdInd ai ti false, asm)
  | .LDIndI16 ptr => do
    let (p, asm) ← from_v1 ptr asm
    let (ai, asm) := asm.alloc_node p
    let (ti, asm) := asm.alloc_type (Ty.Int IntTy.I16)
    Except.ok (CILNode.LdInd ai ti false, asm)
  | .LDIndI32 ptr => do
    let (p, asm) ← from_v1 ptr asm
    let (ai, asm) := asm.alloc_node p
    let (ti, asm) := asm.alloc_type (Ty.Int IntTy.I32)
    Except.ok (CILNode.LdInd ai ti false, asm)
  | .LDIndI64 ptr => do
    let (p, asm) ← from_v1 ptr asm
    let (ai, asm) := asm.alloc_node p
    let (ti, asm) := asm.alloc_type (Ty.Int IntTy.I64)
    Except.ok (CILNode.LdInd ai ti false, asm)
  | .LDIndISize ptr => do
    let (p, asm) ← from_v1 ptr asm
    let (ai, asm) := asm.alloc_node p
    let (ti, asm) := asm.alloc_type (Ty.Int IntTy.ISize)
    Except.ok (CILNode.LdInd ai ti false, asm)
  | .LDIndF32 ptr => do
    let (p, asm) ← from_v1 ptr asm
    let (ai, asm) := asm.alloc_node p
    let (ti, asm) := asm.alloc_type (Ty.Float FloatTy.F32)
    Except.ok (CILNode.LdInd ai ti false, asm)
  | .LDIndF64 ptr => do
    let (p, asm) ← from_v1 ptr asm
    let (ai, asm) := asm.alloc_node p
    let (ti, asm) := asm.alloc_type (Ty.Float FloatTy.F64)
    Except.ok (CILNode.LdInd ai ti false, asm)
  | .LdObj ptr obj => do
    let (o, asm) := type_from_v1 obj asm
    let (p, asm) ← from_v1 ptr asm
    let (ai, asm) := asm.alloc_node p
    let (ti, asm) := asm.alloc_type o
    Except.ok (CILNode.LdInd ai ti false, asm)
  | .LDIndPtr ptr loaded_ptr => do
    let (p, asm) ← from_v1 ptr asm
    let (lp, asm) := type_from_v1 loaded_ptr asm
    let (ai, asm) := asm.alloc_node p
    let (ti, asm) := asm.alloc_type lp
    Except.ok (CILNode.LdInd ai ti false, asm)
  | .ZeroExtendToU64 inner => do
    let (n, asm) ← from_v1 inner asm
    let (ni, asm) := asm.alloc_node n
    Except.ok (CILNode.IntCast ni IntTy.U64 ExtendKind.ZeroExtend, asm)
  | .SignExtendToU64 inner => do
    let (n, asm) ← from_v1 inner asm
    let (ni, asm) := asm.alloc_node n
    Except.ok (CILNode.IntCast ni IntTy.U64 ExtendKind.SignExtend, asm)
  | .ZeroExtendToUSize inner => do
    let (n, asm) ← from_v1 inner asm
    let (ni, asm) := asm.alloc_node n
    Except.ok (CILNode.IntCast ni IntTy.USize ExtendKind.ZeroExtend, asm)
  | .SignExtendToUSize inner => do
    let (n, asm) ← from_v1 inner asm
    let (ni, asm) := asm.alloc_node n
    Except.ok (CILNode.IntCast ni IntTy.USize ExtendKind.SignExtend, asm)
  | .ConvU8 inner => do
    let (n, asm) ← from_v1 inner asm
    let (ni, asm) := asm.alloc_node n
    Except.ok (CILNode.IntCast ni IntTy.U8 ExtendKind.ZeroExtend, asm)
  | .ConvU16 inner => do
    let (n, asm) ← from_v1 inner asm
    let (ni, asm) := asm.alloc_node n
    Except.ok (CILNode.IntCast ni IntTy.U16 ExtendKind.ZeroExtend, asm)
  | .ConvU32 inner => do
    let (n, asm) ← from_v1 inner asm
    let (ni, asm) := asm.alloc_node n
    Except.ok (CILNode.IntCast ni IntTy.U32 ExtendKind.ZeroExtend, asm)
  | .SignExtendToI64 inner => do
    let (n, asm) ← from_v1 inner asm
    let (ni, asm) := asm.alloc_node n
    Except.ok (CILNode.IntCast ni IntTy.I64 ExtendKind.SignExtend, asm)
  | .ZeroExtendToISize inner => do
    let (n, asm) ← from_v1 inner asm
    let (ni, asm) := asm.alloc_node n
    Except.ok (CILNode.IntCast ni IntTy.ISize ExtendKind.ZeroExtend, asm)
  | .SignExtendToISize inner => do
    let (n, asm) ← from_v1 inner asm
    let (ni, asm) := asm.alloc_node n
    Except.ok (CILNode.IntCast ni IntTy.ISize ExtendKind.SignExtend, asm)
  | .ConvI8 inner => do
    let (n, asm) ← from_v1 inner asm
    let (ni, asm) := asm.alloc_node n
    Except.ok (CILNode.IntCast ni IntTy.I8 ExtendKind.SignExtend, asm)
  | .ConvI16 inner => do
    let (n, asm) ← from_v1 inner asm
    let (ni, asm) := asm.alloc_node n
    Except.ok (CILNode.IntCast ni IntTy.I16 ExtendKind.SignExtend, asm)
  | .ConvI32 inner => do
    let (n, asm) ← from_v1 inner asm
    let (ni, asm) := asm.alloc_node n
    Except.ok (CILNode.IntCast ni IntTy.I32 ExtendKind.SignExtend, asm)
  | .ConvF32 inner => do
    let (n, asm) ← from_v1 inner asm
    let (ni, asm) := asm.alloc_node n
    Except.ok (CILNode.FloatCast ni FloatTy.F32 true, asm)
  | .ConvF64 inner => do
    let (n, asm) ← from_v1 inner asm
    let (ni, asm) := asm.alloc_node n
    Except.ok (CILNode.FloatCast ni FloatTy.F64 true, asm)
  | .ConvF64Un inner => do
    let (n, asm) ← from_v1 inner asm
    let (ni, asm) := asm.alloc_node n
    Except.ok (CILNode.FloatCast ni FloatTy.F64 false, asm)
  | .MRefToRawPtr inner => do
    let (n, asm) ← from_v1 inner asm
    let (ni, asm) := asm.alloc_node n
    Except.ok (CILNode.RefToPtr ni, asm)
  | .CastPtr val new_ptr => do
    let (v, asm) ← from_v1 val asm
    let (res, asm) ← (match new_ptr with
      | V1Type.USize => Except.ok (PtrCastRes.USize, asm)
      | V1Type.ISize => Except.ok (PtrCastRes.ISize, asm)
      | V1Type.Ptr inner =>
        let (t2, asm) := type_from_v1 inner asm
        let p := asm.alloc_type t2
        Except.ok (PtrCastRes.Ptr p.1, p.2)
      | V1Type.ManagedReference inner =>
        let (t2, asm) := type_from_v1 inner asm
        let p := asm.alloc_type t2
        Except.ok (PtrCastRes.Ref p.1, p.2)
      | V1Type.DelegatePtr inputs output =>
        let (s2, asm) := sig_from_v1 ⟨inputs, output⟩ asm
        let p := asm.alloc_sig s2
        Except.ok (PtrCastRes.FnPtr p.1, p.2)
      | _ => Except.error (UpgradeError.violation "Type is not a pointer."))
    let (vi, asm) := asm.alloc_node v
    Except.ok (CILNode.PtrCast vi res, asm)
  | .Add lhs rhs => do
    let (l, asm) ← from_v1 lhs asm
    let (r, asm) ← from_v1 rhs asm
    let (li, asm) := asm.alloc_node l
    let (ri, asm) := asm.alloc_node r
    Except.ok (CILNode.BinOp li ri BinOp.Add, asm)
  | .Sub lhs rhs => do
    let (l, asm) ← from_v1 lhs asm
    let (r, asm) ← from_v1 rhs asm
    let (li, asm) := asm.alloc_node l
    let (ri, asm) := asm.alloc_node r
    Except.ok (CILNode.BinOp li ri BinOp.Sub, asm)
  | .Mul lhs rhs => do
    let (l, asm) ← from_v1 lhs asm
    let (r, asm) ← from_v1 rhs asm
    let (li, asm) := asm.alloc_node l
    let (ri, asm) := asm.alloc_node r
    Except.ok (CILNode.BinOp li ri BinOp.Mul, asm)
  | .Eq lhs rhs => do
    let (l, asm) ← from_v1 lhs asm
    let (r, asm) ← from_v1 rhs asm
    let (li, asm) := asm.alloc_node l
    let (ri, asm) := asm.alloc_node r
    Except.ok (CILNode.BinOp li ri BinOp.Eq, asm)
  | .Or lhs rhs => do
    let (l, asm) ← from_v1 lhs asm
    let (r, asm) ← from_v1 rhs asm
    let (li, asm) := asm.alloc_node l
    let (ri, asm) := asm.alloc_node r
    Except.ok (CILNode.BinOp li ri BinOp.Or, asm)
  | .XOr lhs rhs => do
    let (l, asm) ← from_v1 lhs asm
    let (r, asm) ← from_v1 rhs asm
    let (li, asm) := asm.alloc_node l
    let (ri, asm) := asm.alloc_node r
    Except.ok (CILNode.BinOp li ri BinOp.XOr, asm)
  | .And lhs rhs => do
    let (l, asm) ← from_v1 lhs asm
    let (r, asm) ← from_v1 rhs asm
    let (li, asm) := asm.alloc_node l
    let (ri, asm) := asm.alloc_node r
    Except.ok (CILNode.BinOp li ri BinOp.And, asm)
  | .LtUn lhs rhs => do
    let (l, asm) ← from_v1 lhs asm
    let (r, asm) ← from_v1 rhs asm
    let (li, asm) := asm.alloc_node l
    let (ri, asm) := asm.alloc_node r
    Except.ok (CILNode.BinOp li ri BinOp.LtUn, asm)
  | .Lt lhs rhs => do
    let (l, asm) ← from_v1 lhs asm
    let (r, asm) ← from_v1 rhs asm
    let (li, asm) := asm.alloc_node l
    let (ri, asm) := asm.alloc_node r
    Except.ok (CILNode.BinOp li ri BinOp.Lt, asm)
  | .GtUn lhs rhs => do
    let (l, asm) ← from_v1 lhs asm
    let (r, asm) ← from_v1 rhs asm
    let (li, asm) := asm.alloc_node l
    let (ri, asm) := asm.alloc_node r
    Except.ok (CILNode.BinOp li ri BinOp.GtUn, asm)
  | .Gt lhs rhs => do
    let (l, asm) ← from_v1 lhs asm
    let (r, asm) ← from_v1 rhs asm
    let (li, asm) := asm.alloc_node l
    let (ri, asm) := asm.alloc_node r
    Except.ok (CILNode.BinOp li ri BinOp.Gt, asm)
  | .Rem lhs rhs => do
    let (l, asm) ← from_v1 lhs asm
    let (r, asm) ← from_v1 rhs asm
    let (li, asm) := asm.alloc_node l
    let (ri, asm) := asm.alloc_node r
    Except.ok (CILNode.BinOp li ri BinOp.Rem, asm)
  | .RemUn lhs rhs => do
    let (l, asm) ← from_v1 lhs asm
    let (r, asm) ← from_v1 rhs asm
    let (li, asm) := asm.alloc_node l
    let (ri, asm) := asm.alloc_node r
    Except.ok (CILNode.BinOp li ri BinOp.RemUn, asm)
  | .Shl lhs rhs => do
    let (l, asm) ← from_v1 lhs asm
    let (r, asm) ← from_v1 rhs asm
    let (li, asm) := asm.alloc_node l
    let (ri, asm) := asm.alloc_node r
    Except.ok (CILNode.BinOp li ri BinOp.Shl, asm)
  | .Shr lhs rhs => do
    let (l, asm) ← from_v1 lhs asm
    let (r, asm) ← from_v1 rhs asm
    let (li, asm) := asm.alloc_node l
    let (ri, asm) := asm.alloc_node r
    Except.ok (CILNode.BinOp li ri BinOp.Shr, asm)
  | .ShrUn lhs rhs => do
    let (l, asm) ← from_v1 lhs asm
    let (r, asm) ← from_v1 rhs asm
    let (li, asm) := asm.alloc_node l
    let (ri, asm) := asm.alloc_node r
    Except.ok (CILNode.BinOp li ri BinOp.ShrUn, asm)
  | .Div lhs rhs => do
    let (l, asm) ← from_v1 lhs asm
    let (r, asm) ← from_v1 rhs asm
    let (li, asm) := asm.alloc_node l
    let (ri, asm) := asm.alloc_node r
    Except.ok (CILNode.BinOp li ri BinOp.Div, asm)
  | .DivUn lhs rhs => do
    let (l, asm) ← from_v1 lhs asm
    let (r, asm) ← from_v1 rhs asm
    let (li, asm) := asm.alloc_node l
    let (ri, asm) := asm.alloc_node r
    Except.ok (CILNode.BinOp li ri BinOp.DivUn, asm)
  | .Not val => do
    let (v, asm) ← from_v1 val asm
    let (vi, asm) := asm.alloc_node v
    Except.ok (CILNode.UnOp vi UnOp.Not, asm)
  | .Neg val => do
    let (v, asm) ← from_v1 val asm
    let (vi, asm) := asm.alloc_node v
    Except.ok (CILNode.UnOp vi UnOp.Neg, asm)
  | .LDField addr field => do
    let (f, asm) := field_desc_from_v1 field asm
    let (fi, asm) := asm.alloc_field f
    let (a, asm) ← from_v1 addr asm
    let (ai, asm) := asm.alloc_node a
    Except.ok (CILNode.LdField ai fi, asm)
  | .LDFieldAdress addr field => do
    let (f, asm) := field_desc_from_v1 field asm
    let (fi, asm) := asm.alloc_field f
    let (a, asm) ← from_v1 addr asm
    let (ai, asm) := asm.alloc_node a
    Except.ok (CILNode.LdFieldAdress ai fi, asm)
  | .Call site args => do
    let (args2, asm) ← from_v1_args args asm
    let (s2, asm) := sig_from_v1 site.signature asm
    let (sigIdx, asm) := asm.alloc_sig s2
    let (generics, asm) := type_list_from_v1 site.generics asm
    let (cls, asm) :=
      match site.cls with
      | some dt =>
        let (cref, asm) := class_ref_from_v1 dt asm
        asm.alloc_class_ref cref
      | none => (asm.main_module, asm)
    let (name, asm) := asm.alloc_string site.name
    let mr : MethodRef :=
      if site.is_static then ⟨cls, name, sigIdx, MethodKind.Static, generics⟩
      else ⟨cls, name, sigIdx, MethodKind.Instance, generics⟩
    let (mi, asm) := asm.alloc_methodref mr
    Except.ok (CILNode.Call mi args2, asm)
  | .CallVirt site args => do
    let (args2, asm) ← from_v1_args args asm
    let (s2, asm) := sig_from_v1 site.signature asm
    let (sigIdx, asm) := asm.alloc_sig s2
    let (generics, asm) := type_list_from_v1 site.generics asm
    let (cls, asm) :=
      match site.cls with
      | some dt =>
        let (cref, asm) := class_ref_from_v1 dt asm
        asm.alloc_class_ref cref
      | none => (asm.main_module, asm)
    let (name, asm) := asm.alloc_string site.name
    if site.is_static then Except.error (UpgradeError.violation "assertion failed")
    else
      let (mi, asm) := asm.alloc_methodref ⟨cls, name, sigIdx, MethodKind.Virtual, generics⟩
      Except.ok (CILNode.Call mi args2, asm)
  | .NewObj site args => do
    let (args2, asm) ← from_v1_args args asm
    let (s2, asm) := sig_from_v1 site.signature asm
    let (sigIdx, asm) := asm.alloc_sig s2
    let (generics, asm) := type_list_from_v1 site.generics asm
    let (cls, asm) :=
      match site.cls with
      | some dt =>
        let (cref, asm) := class_ref_from_v1 dt asm
        asm.alloc_class_ref cref
      | none => (asm.main_module, asm)
    let (name, asm) := asm.alloc_string site.name
    if site.is_static then Except.error (UpgradeError.violation "Newobj site invalid(is static)")
    else
      let (mi, asm) := asm.alloc_methodref ⟨cls, name, sigIdx, MethodKind.Constructor, generics⟩
      Except.ok (CILNode.Call mi args2, asm)
  | .GetException => Except.ok (CILNode.GetException, asm)
  | .LdStr s => do
    let (si, asm) := asm.alloc_string s
    Except.ok (CILNode.Const (Const.PlatformString si), asm)
  | .SizeOf tpe => do
    let (t2, asm) := type_from_v1 tpe asm
    let (ti, asm) := asm.alloc_type t2
    Except.ok (CILNode.SizeOf ti, asm)
  | .LDTypeToken tpe => do
    let (t2, asm) := type_from_v1 tpe asm
    let (ti, asm) := asm.alloc_type t2
    Except.ok (CILNode.LdTypeToken ti, asm)
  | .LdcU64 v => Except.ok (CILNode.Const (Const.U64 v), asm)
  | .LdcU32 v => Except.ok (CILNode.Const (Const.U32 v), asm)
  | .LdcU16 v => Except.ok (CILNode.Const (Const.U16 v), asm)
  | .LdcU8 v => Except.ok (CILNode.Const (Const.U8 v), asm)
  | .LdcI64 v => Except.ok (CILNode.Const (Const.I64 v), asm)
  | .LdcI32 v => Except.ok (CILNode.Const (Const.I32 v), asm)
  | .LdcI16 v => Except.ok (CILNode.Const (Const.I16 v), asm)
  | .LdcI8 v => Except.ok (CILNode.Const (Const.I8 v), asm)
  | .LdFalse => Except.ok (CILNode.Const (Const.Bool false), asm)
  | .LdTrue => Except.ok (CILNode.Const (Const.Bool true), asm)
  | .LdcF64 bits => Except.ok (CILNode.Const (Const.F64 bits), asm)
  | .LdcF32 bits => Except.ok (CILNode.Const (Const.F32 bits), asm)
  | .IsInst val tpe => do
    let (cref, asm) := class_ref_from_v1 tpe asm
    let (ci, asm) := asm.alloc_class_ref cref
    let (ti, asm) := asm.alloc_type (Ty.ClassRef ci)
    let (v, asm) ← from_v1 val asm
    let (vi, asm) := asm.alloc_node v
    Except.ok (CILNode.IsInst vi ti, asm)
  | .CheckedCast val tpe => do
    let (cref, asm) := class_ref_from_v1 tpe asm
    let (ci, asm) := asm.alloc_class_ref cref
    let (ti, asm) := asm.alloc_type (Ty.ClassRef ci)
    let (v, asm) ← from_v1 val asm
    let (vi, asm) := asm.alloc_node v
    Except.ok (CILNode.CheckedCast vi ti, asm)
  | .CallI sig ptr args => do
    let (s2, asm) := sig_from_v1 sig asm
    let (sigIdx, asm) := asm.alloc_sig s2
    let (p, asm) ← from_v1 ptr asm
    let (pi, asm) := asm.alloc_node p
    let (args2, asm) ← from_v1_args args asm
    Except.ok (CILNode.CallI pi sigIdx args2, asm)
  | .LocAlloc size => do
    let (s, asm) ← from_v1 size asm
    let (si, asm) := asm.alloc_node s
    Except.ok (CILNode.LocAlloc si, asm)
  | .LocAllocAligned tpe align => do
    let (t2, asm) := type_from_v1 tpe asm
    let (ti, asm) := asm.alloc_type t2
    Except.ok (CILNode.LocAllocAlgined ti align, asm)
  | .LDStaticField sfld => do
    let (f, asm) := sfld_from_v1 sfld asm
    let (fi, asm) := asm.alloc_sfld f
    Except.ok (CILNode.LdStaticField fi, asm)
  | .LDFtn site => do
    let (s2, asm) := sig_from_v1 site.signature asm
    let (sigIdx, asm) := asm.alloc_sig s2
    let (generics, asm) := type_list_from_v1 site.generics asm
    let (cls, asm) :=
      match site.cls with
      | some dt =>
        let (cref, asm) := class_ref_from_v1 dt asm
        asm.alloc_class_ref cref
      | none => (asm.main_module, asm)
    let (name, asm) := asm.alloc_string site.name
    let mr : MethodRef :=
      if site.is_static then ⟨cls, name, sigIdx, MethodKind.Static, generics⟩
      else ⟨cls, name, sigIdx, MethodKind.Instance, generics⟩
    let (mi, asm) := asm.alloc_methodref mr
    Except.ok (CILNode.LdFtn mi, asm)
  | .Volatile inner =>
    (match from_v1 inner asm with
      | Except.ok (CILNode.LdInd addr tpe _, asm) =>
        Except.ok (CILNode.LdInd addr tpe true, asm)
      | Except.ok _ => Except.error (UpgradeError.violation "explicit panic")
      | Except.error e => Except.error e)
  | .LDLen arr => do
    let (a, asm) ← from_v1 arr asm
    let (ai, asm) := asm.alloc_node a
    Except.ok (CILNode.LdLen ai, asm)
  | .LDElelemRef arr idx => do
    let (a, asm) ← from_v1 arr asm
    let (ai, asm) := asm.alloc_node a
    let (i, asm) ← from_v1 idx asm
    let (ii, asm) := asm.alloc_node i
    Except.ok (CILNode.LdElelemRef ai ii, asm)
  | .UnboxAny obj tpe => do
    let (o, asm) ← from_v1 obj asm
    let (oi, asm) := asm.alloc_node o
    let (t2, asm) := type_from_v1 tpe asm
    let (ti, asm) := asm.alloc_type t2
    Except.ok (CILNode.UnboxAny oi ti, asm)
  | .Unhandled desc => Except.error (UpgradeError.unimplemented ("v1:" ++ desc))
def from_v1_args (vs : List V1Node) (asm : Assembly) : Except UpgradeError (List Nat × Assembly) :=
  match vs with
  | [] => Except.ok ([], asm)
  | v :: rest => do
    let (n, asm) ← from_v1 v asm
    let (i, asm) := asm.alloc_node n
    let (rest2, asm) ← from_v1_args rest asm
    Except.ok (i :: rest2, asm)
end

instance {e a : Type} [DecidableEq e] [DecidableEq a] : DecidableEq (Except e a) :=
  fun x y =>
    match x, y with
    | Except.ok u, Except.ok v =>
      match decEq u v with
      | isTrue h => isTrue (by rw [h])
      | isFalse h => isFalse (by intro hh; cases hh; exact h rfl)
    | Except.ok _, Except.error _ => isFalse (by intro hh; cases hh)
    | Except.error _, Except.ok _ => isFalse (by intro hh; cases hh)
    | Except.error u, Except.error v =>
      match decEq u v with
      | isTrue h => isTrue (by rw [h])
      | isFalse h => isFalse (by intro hh; cases hh; exact h rfl)

/-- The legacy nodes whose upgrade produces an indirect load (`LdInd`): the
`LDInd*` family, `LdObj` and `LDIndPtr`.  This is the shape `from_v1`'s
`Volatile` arm requires of its upgraded inner node. -/
def is_ldind_shape : V1Node → Bool
  | .LDIndBool _ | .LDIndU8 _ | .LDIndU16 _ | .LDIndU32 _ | .LDIndU64 _
  | .LDIndUSize _ | .LDIndI8 _ | .LDIndI16 _ | .LDIndI32 _ | .LDIndI64 _
  | .LDIndISize _ | .LDIndF32 _ | .LDIndF64 _ | .LdObj _ _ | .LDIndPtr _ _ => true
  | _ => false

/-- A legacy type accepted by the `CastPtr` arm of `from_v1` (the non-pointer
variants hit `panic!("Type {new_ptr:?} is not a pointer.")`). -/
def is_pointer_shape : V1Type → Bool
  | .USize | .ISize | .Ptr _ | .ManagedReference _ | .DelegatePtr _ _ => true
  | _ => false

/-!
Well-formedness of a legacy node for the upgrade pass: the node (recursively)
uses only opcodes of `from_v1`'s handled set and satisfies the handled arms'
own side conditions — `Volatile` wraps a memory load, `CastPtr` casts to a
pointer-like type, and `CallVirt`/`NewObj` sites are not static.
-/
mutual
def wf_v1 : V1Node → Bool
  | .LDArg _ | .LDLoc _ | .LDArgA _ | .LDLocA _ => true
  | .LDIndBool p | .LDIndU8 p | .LDIndU16 p | .LDIndU32 p | .LDIndU64 p
  | .LDIndUSize p | .LDIndI8 p | .LDIndI16 p | .LDIndI32 p | .LDIndI64 p
  | .LDIndISize p | .LDIndF32 p | .LDIndF64 p => wf_v1 p
  | .LdObj p _ => wf_v1 p
  | .LDIndPtr p _ => wf_v1 p
  | .ZeroExtendToU64 i | .SignExtendToU64 i | .ZeroExtendToUSize i
  | .SignExtendToUSize i | .ConvU8 i | .ConvU16 i | .ConvU32 i
  | .SignExtendToI64 i | .ZeroExtendToISize i | .SignExtendToISize i
  | .ConvI8 i | .ConvI16 i | .ConvI32 i | .ConvF32 i | .ConvF64 i
  | .ConvF64Un i => wf_v1 i
  | .MRefToRawPtr i => wf_v1 i
  | .CastPtr v t => is_pointer_shape t && wf_v1 v
  | .Add l r | .Sub l r | .Mul l r | .Eq l r | .Or l r | .XOr l r | .And l r
  | .LtUn l r | .Lt l r | .GtUn l r | .Gt l r | .Rem l r | .RemUn l r
  | .Shl l r | .Shr l r | .ShrUn l r | .Div l r | .DivUn l r =>
    wf_v1 l && wf_v1 r
  | .Not v | .Neg v => wf_v1 v
  | .LDField a _ | .LDFieldAdress a _ => wf_v1 a
  | .Call _ args => wf_v1_list args
  | .CallVirt site args => !site.is_static && wf_v1_list args
  | .NewObj site args => !site.is_static && wf_v1_list args
  | .GetException | .LdStr _ | .SizeOf _ | .LDTypeToken _ => true
  | .LdcU64 _ | .LdcU32 _ | .LdcU16 _ | .LdcU8 _ => true
  | .LdcI64 _ | .LdcI32 _ | .LdcI16 _ | .LdcI8 _ => true
  | .LdFalse | .LdTrue | .LdcF64 _ | .LdcF32 _ => true
  | .IsInst v _ | .CheckedCast v _ => wf_v1 v
  | .CallI _ p args => wf_v1 p && wf_v1_list args
  | .LocAlloc s => wf_v1 s
  | .LocAllocAligned _ _ => true
  | .LDStaticField _ => true
  | .LDFtn _ => true
  | .Volatile inner => is_ldind_shape inner && wf_v1 inner
  | .LDLen a => wf_v1 a
  | .LDElelemRef a i => wf_v1 a && wf_v1 i
  | .UnboxAny o _ => wf_v1 o
  | .Unhandled _ => false
def wf_v1_list : List V1Node → Bool
  | [] => true
  | v :: vs => wf_v1 v && wf_v1_list vs
end

/-- The observable shape of a basic block: its identifying label, its number
of roots, and the nesting tree of its handler blocks. -/
inductive BBShape where
  | mk (block_id : Nat) (nroots : Nat) (handler : Option (List BBShape))

mutual
def block_shape : BasicBlock → BBShape
  | ⟨roots, block_id, none⟩ => BBShape.mk block_id roots.length none
  | ⟨roots, block_id, some bs⟩ => BBShape.mk block_id roots.length (some (block_shape_list bs))
def block_shape_list : List BasicBlock → List BBShape
  | [] => []
  | b :: bs => block_shape b :: block_shape_list bs
end

/-- The "pointer with pointer-width integer" operand-type pairs that the
arithmetic-binop rule accepts despite the types differing. -/
def is_ptr_and_word_int (a b : Ty) : Bool :=
  match a, b with
  | Ty.Ptr _, Ty.Int IntTy.USize | Ty.Ptr _, Ty.Int IntTy.ISize
  | Ty.Int IntTy.USize, Ty.Ptr _ | Ty.Int IntTy.ISize, Ty.Ptr _ => true
  | _, _ => false

/-- Prefix order on the string arenas of two assemblies: translation only ever
appends to the destination's arenas. -/
def str_ext (a b : Assembly) : Prop :=
  a.strings.values <+: b.strings.values

/-- The string `s` is interned in `a` with first occurrence at handle `k`, so
`alloc_string` returns `k` and leaves `a` unchanged. -/
def str_stable (a : Assembly) (s : String) (k : Nat) : Prop :=
  a.strings.values.findIdx? (fun x => x = s) = some k

/-- The empty assembly. -/
def empty_asm : Assembly :=
  ⟨⟨[]⟩, ⟨[]⟩, ⟨[]⟩, ⟨[]⟩, ⟨[]⟩, ⟨[]⟩, ⟨[]⟩, ⟨[]⟩, ⟨[]⟩, ⟨[]⟩, ⟨[]⟩, [], 0⟩

/-- An assembly whose type arena holds exactly `Bool`, used to exercise
self-translation of `Type::Ref`/`Type::Ptr`. -/
def asm_c1 : Assembly :=
  { empty_asm with types := ⟨[Ty.Bool]⟩ }

/-- Source assembly for the field/method-reference translation examples:
strings `"Owner"` (handle 0) and `"fld"` (handle 1), one class reference
named by handle 0, one empty signature. -/
def src_c2 : Assembly :=
  { empty_asm with
    strings := ⟨["Owner", "fld"]⟩
    class_refs := ⟨[⟨0, none, false, []⟩]⟩
    sigs := ⟨[⟨[], Ty.Void⟩]⟩ }

/-- Destination assembly for the field/method-reference translation examples:
its string handle 0 is `"other"`, not `"Owner"`. -/
def dst_c2 : Assembly :=
  { empty_asm with strings := ⟨["other"]⟩ }

/-- The field descriptor `Owner::fld : bool` interned in `src_c2`. -/
def fld_c2 : FieldDesc := ⟨0, 1, Ty.Bool⟩

/-- The method reference `Owner::fld()` (static, no generics) in `src_c2`. -/
def mref_c2 : MethodRef := ⟨0, 1, 0, MethodKind.Static, []⟩

/-- First source assembly for the string-collapsing example: `"abc"` at
string handle 0. -/
def src_c3a : Assembly :=
  { empty_asm with strings := ⟨["abc"]⟩ }

/-- Second source assembly for the string-collapsing example: `"abc"` at
string handle 1. -/
def src_c3b : Assembly :=
  { empty_asm with strings := ⟨["xyz", "abc"]⟩ }

/-- Destination assembly for the string-collapsing example: its string handle
0 is `"xyz"` and it does not intern `"abc"` at all. -/
def dst_c3 : Assembly :=
  { empty_asm with strings := ⟨["xyz"]⟩ }

/-- An assembly holding the constant nodes `Const(I32 1)` (handle 0) and
`Const(I64 2)` (handle 1), to exercise the arithmetic-binop typing rule. -/
def asm_c6 : Assembly :=
  { empty_asm with nodes := ⟨[CILNode.Const (Const.I32 1), CILNode.Const (Const.I64 2)]⟩ }

/-- Source assembly for the method-definition translation example: strings
`"Foo"` and `"m"`, a class reference named `"Foo"`, and the signature
`() -> void`. -/
def src_c9 : Assembly :=
  { empty_asm with
    strings := ⟨["Foo", "m"]⟩
    class_refs := ⟨[⟨0, none, false, []⟩]⟩
    sigs := ⟨[⟨[], Ty.Void⟩]⟩ }

/-- The method definition `Foo::m : () -> void` (static, no body) in `src_c9`. -/
def mdef_c9 : MethodDef :=
  ⟨0, 0, 1, 0, MethodKind.Static, MethodImpl.Missing, []⟩

/-- A destination that resolves the translated `Foo` class reference (which
re-interns at handle 0) to the class-definition handle 7. -/
def dst_c9 : Assembly :=
  { empty_asm with ref_to_def := [(0, 7)] }

/-- The state of `empty_asm` after `translate_class_ref` has re-interned the
`Foo` reference from `src_c9` (used by the failing direction of the
method-definition example, where `ref_to_def` is empty). -/
def dst_c9_mid : Assembly :=
  { empty_asm with
    strings := ⟨["Foo"]⟩
    class_refs := ⟨[⟨0, none, false, []⟩]⟩ }

/-- Source assembly for the class-definition translation example: strings
`"Cls"`, `"f1"`, `"f2"`. -/
def src_c5 : Assembly := { empty_asm with strings := ⟨["Cls", "f1", "f2"]⟩ }

/-- A class definition named `"Cls"` with two fields named `"f1"`/`"f2"` and a
static field named `"f2"`. -/
def cdef_c5 : ClassDef :=
  ⟨0, false, 0, none, [(Ty.Bool, 1, none), (Ty.Int IntTy.U8, 2, some 4)],
    [(Ty.Bool, 2, false)], [], 0, none⟩

/-- `translate_class_def`'s output for `cdef_c5`: every field and static field
carries the class's own re-interned name (handle 0, `"Cls"`). -/
def cd_c5_res : ClassDef :=
  ⟨0, false, 0, none, [(Ty.Bool, 0, none), (Ty.Int IntTy.U8, 0, some 4)],
    [(Ty.Bool, 0, false)], [], 0, none⟩

/-- The destination after translating `cdef_c5` into `empty_asm`. -/
def dst_c5_res : Assembly := { empty_asm with strings := ⟨["Cls"]⟩ }

/-- Source assembly for the block translation example: two roots. -/
def src_c7 : Assembly := { empty_asm with roots := ⟨[CILRoot.VoidRet, CILRoot.Nop]⟩ }

/-- Destination for the block translation example, pre-seeded with one root so
that translated root handles shift. -/
def dst_c7 : Assembly := { empty_asm with roots := ⟨[CILRoot.Break]⟩ }

/-- A block with two levels of nested exception handlers. -/
def blk_c7 : BasicBlock := ⟨[0], 5, some [⟨[1], 6, some [⟨[0, 1], 7, none⟩]⟩]⟩

/-- The translation of `blk_c7` into `dst_c7`: same labels, root counts and
nesting shape, with re-interned root handles. -/
def blk_c7_res : BasicBlock := ⟨[1], 5, some [⟨[2], 6, some [⟨[1, 2], 7, none⟩]⟩]⟩

/-- The destination after translating `blk_c7` into `dst_c7`. -/
def dst_c7_res : Assembly :=
  { empty_asm with roots := ⟨[CILRoot.Break, CILRoot.VoidRet, CILRoot.Nop]⟩ }

/-- The translation of `mdef_c9` into `dst_c9`: its owner is the
class-definition handle 7 resolved through `class_ref_to_def`. -/
def md_c9_res : MethodDef := ⟨0, 7, 1, 0, MethodKind.Static, MethodImpl.Missing, []⟩

/-- The destination after translating `mdef_c9` into `dst_c9`. -/
def dst_c9_res : Assembly :=
  { empty_asm with
    strings := ⟨["Foo", "m"]⟩
    class_refs := ⟨[⟨0, none, false, []⟩]⟩
    sigs := ⟨[⟨[], Ty.Void⟩]⟩
    ref_to_def := [(0, 7)] }

/-- The assembly state after upgrading `LDIndBool (LDArg 0)` from the empty
assembly. -/
def asm_c10_res : Assembly :=
  { empty_asm with nodes := ⟨[CILNode.LdArg 0]⟩, types := ⟨[Ty.Bool]⟩ }

theorem arena_insert_stable {α : Type} [DecidableEq α] (a : Arena α) (v : α) :
    ((a.insert v).2.values.findIdx? (fun x => x = v)) = some (a.insert v).1 := by
  unfold Arena.insert
  cases h : a.values.findIdx? (fun x => x = v) with
  | some i => simp [h]
  | none => simp [h]

theorem findIdx?_of_prefix {α : Type} {l₁ l₂ : List α} {p : α → Bool} {k : Nat}
    (hpre : l₁ <+: l₂) (h : l₁.findIdx? p = some k) : l₂.findIdx? p = some k := by
  obtain ⟨t, rfl⟩ := hpre
  simp [List.findIdx?_append, h]

theorem str_ext_refl (a : Assembly) : str_ext a a := List.prefix_refl _

theorem str_ext_trans {a b c : Assembly} (h1 : str_ext a b) (h2 : str_ext b c) :
    str_ext a c := List.IsPrefix.trans h1 h2

theorem str_ext_of_strings_eq {a b : Assembly} (h : b.strings = a.strings) : str_ext a b := by
  unfold str_ext
  rw [h]

theorem str_ext_alloc_string (a : Assembly) (s : String) : str_ext a (a.alloc_string s).2 := by
  unfold str_ext Assembly.alloc_string Arena.insert
  cases h : a.strings.values.findIdx? (fun x => x = s) with
  | some i => simp
  | none => simp

theorem str_stable_alloc (a : Assembly) (s : String) :
    str_stable (a.alloc_string s).2 s (a.alloc_string s).1 := by
  unfold str_stable Assembly.alloc_string
  exact arena_insert_stable a.strings s

theorem str_stable_mono {a b : Assembly} {s : String} {k : Nat}
    (h : str_stable a s k) (hext : str_ext a b) : str_stable b s k :=
  findIdx?_of_prefix hext h

theorem alloc_string_of_stable {a : Assembly} {s : String} {k : Nat}
    (h : str_stable a s k) : a.alloc_string s = (k, a) := by
  unfold str_stable at h
  unfold Assembly.alloc_string Arena.insert
  rw [h]

/-- Translation of types, class references and signatures only ever appends to
the destination's string arena. -/
theorem type_cluster_ext : ∀ fuel : Nat,
    (∀ dst src t r, translate_type fuel dst src t = some r → str_ext dst r.2) ∧
    (∀ dst src c r, translate_class_ref fuel dst src c = some r → str_ext dst r.2) ∧
    (∀ dst src s r, translate_sig fuel dst src s = some r → str_ext dst r.2) ∧
    (∀ dst src ts r, translate_type_list fuel dst src ts = some r → str_ext dst r.2) := by
  intro fuel
  induction fuel with
  | zero =>
    refine ⟨?_, ?_, ?_, ?_⟩ <;> intro dst src x r h <;>
      simp [translate_type, translate_class_ref, translate_sig, translate_type_list] at h
  | succ n ih =>
    obtain ⟨ihT, ihC, ihS, ihL⟩ := ih
    refine ⟨?_, ?_, ?_, ?_⟩
    · intro dst src t r h
      cases t <;>
        simp only [translate_type, Option.bind_eq_bind, Option.bind_eq_some,
          Option.some.injEq] at h
      case Ptr inner =>
        obtain ⟨v, hv, ⟨i2, dstA⟩, hT, hr⟩ := h
        subst hr
        exact str_ext_trans (ihT _ _ _ _ hT) (str_ext_of_strings_eq rfl)
      case Ref inner =>
        obtain ⟨v, hv, ⟨i2, dstA⟩, hT, hr⟩ := h
        subst hr
        exact str_ext_trans (ihT _ _ _ _ hT) (str_ext_of_strings_eq rfl)
      case Int i => subst h; exact str_ext_refl _
      case Float f => subst h; exact str_ext_refl _
      case PlatformString => subst h; exact str_ext_refl _
      case PlatformChar => subst h; exact str_ext_refl _
      case Bool => subst h; exact str_ext_refl _
      case Void => subst h; exact str_ext_refl _
      case PlatformObject => subst h; exact str_ext_refl _
      case PlatformGeneric a k => subst h; exact str_ext_refl _
      case ClassRef c =>
        obtain ⟨⟨c2, dstA⟩, hC, hr⟩ := h
        subst hr
        exact ihC _ _ _ _ hC
      case PlatformArray e d =>
        obtain ⟨v, hv, ⟨e2, dstA⟩, hT, hr⟩ := h
        subst hr
        exact str_ext_trans (ihT _ _ _ _ hT) (str_ext_of_strings_eq rfl)
      case FnPtr s =>
        obtain ⟨v, hv, ⟨s2, dstA⟩, hS, hr⟩ := h
        subst hr
        exact str_ext_trans (ihS _ _ _ _ hS) (str_ext_of_strings_eq rfl)
    · intro dst src c r h
      simp only [translate_class_ref, Option.bind_eq_bind, Option.bind_eq_some,
        Option.some.injEq] at h
      obtain ⟨cref, hcref, s, hs, h⟩ := h
      cases hasm : cref.asm with
      | none =>
        rw [hasm] at h
        simp only [Option.bind_eq_bind, Option.bind_eq_some, Option.some.injEq] at h
        obtain ⟨⟨asm2, dstA⟩, hA, ⟨gens, dstB⟩, hL, hr⟩ := h
        subst hr
        rw [Prod.mk.injEq] at hA
        obtain ⟨hA1, hA2⟩ := hA
        subst hA2
        exact str_ext_trans (str_ext_alloc_string dst s)
          (str_ext_trans (ihL _ _ _ (gens, dstB) hL) (str_ext_of_strings_eq rfl))
      | some a =>
        rw [hasm] at h
        simp only [Option.bind_eq_bind, Option.bind_eq_some, Option.some.injEq] at h
        obtain ⟨⟨asm2, dstA⟩, ⟨s2, hs2, hA⟩, ⟨gens, dstB⟩, hL, hr⟩ := h
        subst hr
        rw [Prod.mk.injEq] at hA
        obtain ⟨hA1, hA2⟩ := hA
        subst hA2
        refine str_ext_trans (str_ext_alloc_string dst s) ?_
        refine str_ext_trans (str_ext_alloc_string _ s2) ?_
        exact str_ext_trans (ihL _ _ _ (gens, dstB) hL) (str_ext_of_strings_eq rfl)
    · intro dst src sg r h
      simp only [translate_sig, Option.bind_eq_bind, Option.bind_eq_some,
        Option.some.injEq] at h
      obtain ⟨⟨ins, dstA⟩, hL, ⟨out, dstB⟩, hT, hr⟩ := h
      subst hr
      exact str_ext_trans (ihL _ _ _ _ hL) (ihT _ _ _ _ hT)
    · intro dst src ts r h
      cases ts with
      | nil =>
        simp only [translate_type_list, Option.some.injEq] at h
        subst h
        exact str_ext_refl _
      | cons t rest =>
        simp only [translate_type_list, Option.bind_eq_bind, Option.bind_eq_some,
          Option.some.injEq] at h
        obtain ⟨⟨t2, dstA⟩, hT, ⟨rest2, dstB⟩, hL, hr⟩ := h
        subst hr
        exact str_ext_trans (ihT _ _ _ (t2, dstA) hT) (ihL _ _ _ (rest2, dstB) hL)

theorem def_fields_names (fuel : Nat) (src : Assembly) (cls_name : Nat) (s : String)
    (hs : src.get_string cls_name = some s) :
    ∀ (fs : List (Ty × Nat × Option Nat)) (dst : Assembly) (k : Nat)
      (r : List (Ty × Nat × Option Nat) × Assembly),
      str_stable dst s k →
      translate_def_fields fuel dst src cls_name fs = some r →
      (∀ x ∈ r.1, x.2.1 = k) ∧ str_stable r.2 s k := by
  intro fs
  induction fs with
  | nil =>
    intro dst k r hst h
    simp only [translate_def_fields, Option.some.injEq] at h
    subst h
    exact ⟨by simp, hst⟩
  | cons f rest ih =>
    intro dst k r hst h
    obtain ⟨tpe, nm, offset⟩ := f
    simp only [translate_def_fields, Option.bind_eq_bind, Option.bind_eq_some,
      Option.some.injEq] at h
    obtain ⟨⟨t2, dstA⟩, hT, s2, hs2, ⟨rest2, dstB⟩, hRest, hr⟩ := h
    subst hr
    rw [hs] at hs2
    injection hs2 with hs2
    subst hs2
    have hstA : str_stable dstA s k :=
      str_stable_mono hst ((type_cluster_ext fuel).1 _ _ _ (t2, dstA) hT)
    rw [show (t2, dstA).2.alloc_string s = (k, dstA) from alloc_string_of_stable hstA]
      at hRest ⊢
    obtain ⟨hnames, hstB⟩ := ih dstA k (rest2, dstB) hstA hRest
    refine ⟨?_, hstB⟩
    intro x hx
    simp only [List.mem_cons] at hx
    rcases hx with rfl | hx
    · rfl
    · exact hnames x hx

theorem def_static_fields_names (fuel : Nat) (src : Assembly) (cls_name : Nat) (s : String)
    (hs : src.get_string cls_name = some s) :
    ∀ (fs : List (Ty × Nat × Bool)) (dst : Assembly) (k : Nat)
      (r : List (Ty × Nat × Bool) × Assembly),
      str_stable dst s k →
      translate_def_static_fields fuel dst src cls_name fs = some r →
      (∀ x ∈ r.1, x.2.1 = k) ∧ str_stable r.2 s k := by
  intro fs
  induction fs with
  | nil =>
    intro dst k r hst h
    simp only [translate_def_static_fields, Option.some.injEq] at h
    subst h
    exact ⟨by simp, hst⟩
  | cons f rest ih =>
    intro dst k r hst h
    obtain ⟨tpe, nm, tl⟩ := f
    simp only [translate_def_static_fields, Option.bind_eq_bind, Option.bind_eq_some,
      Option.some.injEq] at h
    obtain ⟨⟨t2, dstA⟩, hT, s2, hs2, ⟨rest2, dstB⟩, hRest, hr⟩ := h
    subst hr
    rw [hs] at hs2
    injection hs2 with hs2
    subst hs2
    have hstA : str_stable dstA s k :=
      str_stable_mono hst ((type_cluster_ext fuel).1 _ _ _ (t2, dstA) hT)
    rw [show (t2, dstA).2.alloc_string s = (k, dstA) from alloc_string_of_stable hstA]
      at hRest ⊢
    obtain ⟨hnames, hstB⟩ := ih dstA k (rest2, dstB) hstA hRest
    refine ⟨?_, hstB⟩
    intro x hx
    simp only [List.mem_cons] at hx
    rcases hx with rfl | hx
    · rfl
    · exact hnames x hx

/-- Block translation preserves the block label, the root count and the
handler nesting tree, and root-handle translation preserves list length. -/
theorem block_cluster_shape : ∀ fuel : Nat,
    (∀ dst src b r, translate_block fuel dst src b = some r →
      block_shape r.1 = block_shape b) ∧
    (∀ dst src bs r, translate_block_list fuel dst src bs = some r →
      block_shape_list r.1 = block_shape_list bs) ∧
    (∀ dst src hs r, translate_root_handles fuel dst src hs = some r →
      r.1.length = hs.length) := by
  intro fuel
  induction fuel with
  | zero =>
    refine ⟨?_, ?_, ?_⟩ <;> intro dst src x r h <;>
      simp [translate_block, translate_block_list, translate_root_handles] at h
  | succ n ih =>
    obtain ⟨ihB, ihL, ihR⟩ := ih
    refine ⟨?_, ?_, ?_⟩
    · intro dst src b r h
      obtain ⟨roots, bid, handler⟩ := b
      simp only [translate_block, Option.bind_eq_bind, Option.bind_eq_some,
        Option.some.injEq] at h
      obtain ⟨⟨roots2, dstA⟩, hR, h⟩ := h
      cases handler with
      | none =>
        simp only [Option.bind_eq_bind, Option.bind_eq_some, Option.some.injEq] at h
        obtain ⟨⟨h2, dstB⟩, hH, hr⟩ := h
        rw [Prod.mk.injEq] at hH
        obtain ⟨hH1, hH2⟩ := hH
        subst hr
        subst hH1
        have hlen := ihR _ _ _ (roots2, dstA) hR
        simp only [block_shape]
        rw [hlen]
      | some bs =>
        simp only [Option.bind_eq_bind, Option.bind_eq_some, Option.some.injEq] at h
        obtain ⟨⟨h2, dstB⟩, ⟨⟨bs2, dstC⟩, hL, hSome⟩, hr⟩ := h
        rw [Prod.mk.injEq] at hSome
        obtain ⟨hS1, hS2⟩ := hSome
        subst hr
        subst hS1
        have hlen := ihR _ _ _ (roots2, dstA) hR
        have hsh := ihL _ _ _ (bs2, dstC) hL
        simp only [block_shape]
        rw [hlen, hsh]
    · intro dst src bs r h
      cases bs with
      | nil =>
        simp only [translate_block_list, Option.some.injEq] at h
        subst h
        rfl
      | cons b rest =>
        simp only [translate_block_list, Option.bind_eq_bind, Option.bind_eq_some,
          Option.some.injEq] at h
        obtain ⟨⟨b2, dstA⟩, hB, ⟨rest2, dstB⟩, hL, hr⟩ := h
        subst hr
        simp only [block_shape_list]
        rw [ihB _ _ _ (b2, dstA) hB, ihL _ _ _ (rest2, dstB) hL]
    · intro dst src hs r h
      cases hs with
      | nil =>
        simp only [translate_root_handles, Option.some.injEq] at h
        subst h
        rfl
      | cons hd rest =>
        simp only [translate_root_handles, Option.bind_eq_bind, Option.bind_eq_some,
          Option.some.injEq] at h
        obtain ⟨v, hv, ⟨r2, dstA⟩, hRoot, ⟨rest2, dstB⟩, hRec, hr⟩ := h
        subst hr
        simp only [List.length_cons]
        rw [ihR _ _ _ (rest2, dstB) hRec]

theorem arithBinopType_eq (a : Ty) : arithBinopType a a = Except.ok a := by
  simp [arithBinopType]

theorem arithBinopType_mismatch {a b : Ty} (hne : a ≠ b)
    (hnp : is_ptr_and_word_int a b = false) :
    arithBinopType a b = Except.error (TypeError.mismatch (mismatchMsg a b)) := by
  unfold arithBinopType
  rw [if_pos hne]
  split
  · simp_all [is_ptr_and_word_int]
  · simp_all [is_ptr_and_word_int]
  · simp_all [is_ptr_and_word_int]
  · simp_all [is_ptr_and_word_int]
  · rfl

theorem except_bind_ok {e a b : Type} (x : a) (f : a → Except e b) :
    (Except.ok x : Except e a) >>= f = f x := rfl

theorem arithBinopType_ptrpair {a b : Ty} (hne : a ≠ b)
    (hp : is_ptr_and_word_int a b = true) :
    ∃ t, arithBinopType a b = Except.ok t := by
  unfold is_ptr_and_word_int at hp
  split at hp
  · exact ⟨Ty.Int IntTy.USize, by simp [arithBinopType, hne]⟩
  · exact ⟨Ty.Int IntTy.ISize, by simp [arithBinopType, hne]⟩
  · exact ⟨Ty.Int IntTy.USize, by simp [arithBinopType, hne]⟩
  · exact ⟨Ty.Int IntTy.ISize, by simp [arithBinopType, hne]⟩
  · exact absurd hp (by simp)

theorem get_type_binop (fuel sig : Nat) (locals : List (Option Nat × Nat)) (asm : Assembly)
    (l r : Nat) (op : BinOp) (nl nr : CILNode) (tl tr : Ty)
    (hop : op = BinOp.Add ∨ op = BinOp.Sub ∨ op = BinOp.Mul)
    (hl : asm.get_node l = some nl) (hr : asm.get_node r = some nr)
    (htl : get_type fuel sig locals asm nl = Except.ok tl)
    (htr : get_type fuel sig locals asm nr = Except.ok tr) :
    get_type (fuel + 1) sig locals asm (CILNode.BinOp l r op) = arithBinopType tl tr := by
  rcases hop with rfl | rfl | rfl <;>
    simp [get_type, hl, hr, htl, htr, except_bind_ok]
set_option maxHeartbeats 1000000
theorem except_bind_error {e a b : Type} (err : e) (f : a → Except e b) :
    (Except.error err : Except e a) >>= f = Except.error err := rfl

theorem except_bind_eq_ok {e a b : Type} (x : Except e a) (f : a → Except e b) (y : b) :
    (x >>= f = Except.ok y) ↔ ∃ v, x = Except.ok v ∧ f v = Except.ok y := by
  cases x with
  | ok v => simp [except_bind_ok]
  | error err => simp [except_bind_error]

theorem from_v1_ldind_shape (inner : V1Node) (asm : Assembly) (n : CILNode) (asm2 : Assembly)
    (hsh : is_ldind_shape inner = true) (h : from_v1 inner asm = Except.ok (n, asm2)) :
    ∃ a t, n = CILNode.LdInd a t false := by
  cases inner <;> simp only [is_ldind_shape] at hsh <;>
    first
    | exact absurd hsh Bool.false_ne_true
    | (simp only [from_v1, except_bind_eq_ok] at h; obtain ⟨⟨q, a1⟩, hq, h⟩ := h; simp only [Except.ok.injEq, Prod.mk.injEq] at h; exact ⟨_, _, h.1.symm⟩)

theorem from_v1_total :
    (∀ v1 asm, wf_v1 v1 = true → ∃ r, from_v1 v1 asm = Except.ok r) ∧
    (∀ vs asm, wf_v1_list vs = true → ∃ r, from_v1_args vs asm = Except.ok r) := by
  have H := from_v1.mutual_induct
    (motive_1 := fun v1 asm => wf_v1 v1 = true → ∃ r, from_v1 v1 asm = Except.ok r)
    (motive_2 := fun vs asm => wf_v1_list vs = true → ∃ r, from_v1_args vs asm = Except.ok r)
  apply H <;> clear H
  all_goals intros
  all_goals try exact ⟨_, rfl⟩
  all_goals try (rename_i ih h; simp only [wf_v1] at h; obtain ⟨⟨n1, a1⟩, hn⟩ := ih h; simp only [from_v1, hn, except_bind_ok]; exact ⟨_, rfl⟩)
  all_goals try (rename_i ih1 ih2 h; simp only [wf_v1, Bool.and_eq_true] at h; obtain ⟨h1, h2⟩ := h; obtain ⟨⟨n1, a1⟩, hn1⟩ := ih1 h1; obtain ⟨⟨n2, a2⟩, hn2⟩ := ih2 a1 h2; simp only [from_v1, from_v1_args, hn1, hn2, except_bind_ok]; exact ⟨_, rfl⟩)
  case case18 =>
    rename_i i2v dv heq ih h
    simp only [wf_v1] at h
    obtain ⟨⟨n1, a1⟩, hn⟩ := ih h
    simp only [from_v1, heq, hn, except_bind_ok]
    exact ⟨_, rfl⟩
  case case37 =>
    rename_i ih h
    simp only [wf_v1, Bool.and_eq_true] at h
    obtain ⟨hp, hwf⟩ := h
    obtain ⟨⟨n1, a1⟩, hn⟩ := ih hwf
    cases ‹V1Type› <;> simp only [is_pointer_shape] at hp <;>
      first
      | exact absurd hp Bool.false_ne_true
      | (simp only [from_v1, hn, except_bind_ok]; exact ⟨_, rfl⟩)
  case case58 =>
    rename_i f2v d1 e1 c1 d2 e2 ih h
    simp only [wf_v1] at h
    obtain ⟨⟨n1, a1⟩, hn⟩ := ih h
    simp only [from_v1, e1, e2, hn, except_bind_ok]
    exact ⟨_, rfl⟩
  case case59 =>
    rename_i f2v d1 e1 c1 d2 e2 ih h
    simp only [wf_v1] at h
    obtain ⟨⟨n1, a1⟩, hn⟩ := ih h
    simp only [from_v1, e1, e2, hn, except_bind_ok]
    exact ⟨_, rfl⟩
  case case61 =>
    rename_i ih h
    simp only [wf_v1, Bool.and_eq_true, Bool.not_eq_true'] at h
    obtain ⟨hs, hl⟩ := h
    obtain ⟨⟨ar, a1⟩, ha⟩ := ih hl
    simp only [from_v1, ha, except_bind_ok, hs]
    exact ⟨_, rfl⟩
  case case62 =>
    rename_i ih h
    simp only [wf_v1, Bool.and_eq_true, Bool.not_eq_true'] at h
    obtain ⟨hs, hl⟩ := h
    obtain ⟨⟨ar, a1⟩, ha⟩ := ih hl
    simp only [from_v1, ha, except_bind_ok, hs]
    exact ⟨_, rfl⟩
  case case79 =>
    rename_i orf a1v e1 c1 d1 e2 c2v d2 e3 ih h
    simp only [wf_v1] at h
    obtain ⟨⟨n1, a1⟩, hn⟩ := ih h
    simp only [from_v1, e1, e2, e3, hn, except_bind_ok]
    exact ⟨_, rfl⟩
  case case80 =>
    rename_i orf a1v e1 c1 d1 e2 c2v d2 e3 ih h
    simp only [wf_v1] at h
    obtain ⟨⟨n1, a1⟩, hn⟩ := ih h
    simp only [from_v1, e1, e2, e3, hn, except_bind_ok]
    exact ⟨_, rfl⟩
  case case81 =>
    rename_i s2v d1 e1 c1 d2 e2 ihp iha h
    simp only [wf_v1, Bool.and_eq_true] at h
    obtain ⟨h1, h2⟩ := h
    obtain ⟨⟨p1, a1⟩, hp⟩ := ihp h1
    obtain ⟨⟨ar, a2⟩, ha⟩ := iha ((a1.alloc_node p1).2) h2
    simp only [from_v1, e1, e2, hp, ha, except_bind_ok]
    exact ⟨_, rfl⟩
  case case86 =>
    rename_i adv tpv volv aA heq ih h
    simp only [from_v1, heq]
    exact ⟨_, rfl⟩
  case case87 =>
    rename_i pr hne heq ih h
    simp only [wf_v1, Bool.and_eq_true] at h
    obtain ⟨hsh, hwf⟩ := h
    obtain ⟨nn, aa⟩ := pr
    obtain ⟨ad, t, rfl⟩ := from_v1_ldind_shape _ _ _ _ hsh heq
    exact absurd rfl (hne ad t false aa)
  case case88 =>
    rename_i ev heq ih h
    simp only [wf_v1, Bool.and_eq_true] at h
    obtain ⟨hsh, hwf⟩ := h
    obtain ⟨⟨n1, a1⟩, hn⟩ := ih hwf
    rw [hn] at heq
    exact absurd heq (by simp)
  case case90 =>
    rename_i ih1 ih2 h
    simp only [wf_v1, Bool.and_eq_true] at h
    obtain ⟨h1, h2⟩ := h
    obtain ⟨⟨n1, a1⟩, hn1⟩ := ih1 h1
    obtain ⟨⟨n2, a2⟩, hn2⟩ := ih2 ((a1.alloc_node n1).2) h2
    simp only [from_v1, hn1, hn2, except_bind_ok]
    exact ⟨_, rfl⟩
  case case92 =>
    rename_i h
    simp only [wf_v1] at h
    exact absurd h Bool.false_ne_true
  case case94 =>
    rename_i ih1 ih2 h
    simp only [wf_v1_list, Bool.and_eq_true] at h
    obtain ⟨h1, h2⟩ := h
    obtain ⟨⟨n1, a1⟩, hn1⟩ := ih1 h1
    obtain ⟨⟨n2, a2⟩, hn2⟩ := ih2 ((a1.alloc_node n1).2) h2
    simp only [from_v1, from_v1_args, hn1, hn2, except_bind_ok]
    exact ⟨_, rfl⟩


/-- C1: self-translation of an interned type is claimed to preserve the
variant, a managed reference (`Type::Ref`) staying a managed reference.  The
code instead rebuilds both the `Ptr` and the `Ref` arm with `nptr`: evaluated
on an assembly interning `Bool`, self-translating `Ref 0` yields `Ptr 0` (a
pointer, not a managed reference), while `Ptr 0` is preserved; `Ref` and `Ptr`
are distinct variants. -/
theorem claim_C1 :
    translate_type 9 asm_c1 asm_c1 (Ty.Ref 0) = some (Ty.Ptr 0, asm_c1) ∧
    translate_type 9 asm_c1 asm_c1 (Ty.Ptr 0) = some (Ty.Ptr 0, asm_c1) ∧
    (∀ i j : Nat, Ty.Ref i ≠ Ty.Ptr j) :=
  ⟨by decide, by decide, fun _ _ h => Ty.noConfusion h⟩

/-- C2: field, static-field and method-reference translation are claimed to
re-intern every nested handle of the owner class reference.  The code clones
the source `ClassRef` into the destination unchanged: the owner stored in the
destination keeps the source's name handle 0, which resolves to `"other"` in
the destination while it named `"Owner"` in the source. -/
theorem claim_C2 :
    (translate_field 9 dst_c2 src_c2 fld_c2).map
      (fun r => (r.1, r.2.class_ref 0, r.2.get_string 0, r.2.get_string 1)) =
      some (⟨0, 1, Ty.Bool⟩, some ⟨0, none, false, []⟩, some "other", some "fld") ∧
    (translate_static_field 9 dst_c2 src_c2 ⟨0, 1, Ty.Bool⟩).map
      (fun r => (r.1, r.2.class_ref 0, r.2.get_string 0, r.2.get_string 1)) =
      some (⟨0, 1, Ty.Bool⟩, some ⟨0, none, false, []⟩, some "other", some "fld") ∧
    (translate_method_ref 9 dst_c2 src_c2 mref_c2).map
      (fun r => (r.1.cls, r.2.class_ref 0, r.2.get_string 0)) =
      some (0, some ⟨0, none, false, []⟩, some "other") ∧
    src_c2.get_string 0 = some "Owner" :=
  ⟨by decide, by decide, by decide, by decide⟩

/-- C3: `translate_node` is claimed to re-intern, byte for byte, every string
handle nested in a node, including the handle inside a `Const` platform-string
constant, so byte-identical strings from different sources collapse to one
destination handle.  The code returns `Const` nodes unchanged: the nodes for
`"abc"` (handle 0 of one source, handle 1 of another) keep those source
handles, the destination is not extended, its handle 0 still reads `"xyz"`
and its handle 1 is unallocated — the two byte-identical strings neither
re-intern nor collapse. -/
theorem claim_C3 :
    translate_node 9 dst_c3 src_c3a (CILNode.Const (Const.PlatformString 0)) =
      some (CILNode.Const (Const.PlatformString 0), dst_c3) ∧
    translate_node 9 dst_c3 src_c3b (CILNode.Const (Const.PlatformString 1)) =
      some (CILNode.Const (Const.PlatformString 1), dst_c3) ∧
    src_c3a.get_string 0 = some "abc" ∧
    src_c3b.get_string 1 = some "abc" ∧
    dst_c3.get_string 0 = some "xyz" ∧
    dst_c3.get_string 1 = none ∧
    CILNode.Const (Const.PlatformString 0) ≠ CILNode.Const (Const.PlatformString 1) :=
  ⟨by decide, by decide, by decide, by decide, by decide, by decide, by decide⟩

/-- C4: the arithmetic-binop rule of `get_type` is claimed to return the
pointer operand's type for pointer ± pointer-width-integer operands.  The rule
(`cilnode.rs` lines 163-171, embedded as `arithBinopType`, which `get_type`'s
add/sub/mul arm applies to the operand types) matches on the pair
`(rhs, lhs)` with patterns written for `(lhs, rhs)`: in all four accepted
pointer/integer combinations it returns the integer operand's type, never the
pointer type. -/
theorem claim_C4 :
    arithBinopType (Ty.Ptr 0) (Ty.Int IntTy.USize) = Except.ok (Ty.Int IntTy.USize) ∧
    arithBinopType (Ty.Int IntTy.USize) (Ty.Ptr 0) = Except.ok (Ty.Int IntTy.USize) ∧
    arithBinopType (Ty.Ptr 0) (Ty.Int IntTy.ISize) = Except.ok (Ty.Int IntTy.ISize) ∧
    arithBinopType (Ty.Int IntTy.ISize) (Ty.Ptr 0) = Except.ok (Ty.Int IntTy.ISize) ∧
    Ty.Int IntTy.USize ≠ Ty.Ptr 0 :=
  ⟨by decide, by decide, by decide, by decide, by decide⟩

/-- C5: in `translate_class_def`, every field and static field of the
translated definition carries the owning class's own re-interned name (the
code re-resolves `def.name()` in place of each field's declared name), so all
translated field names equal the translated class name. -/
theorem claim_C5 : ∀ (fuel : Nat) (dst src : Assembly) (d : ClassDef) (cd : ClassDef)
    (dst2 : Assembly), translate_class_def (fuel + 1) dst src d = some (cd, dst2) →
    (∀ x ∈ cd.fields, x.2.1 = cd.name) ∧ (∀ x ∈ cd.static_fields, x.2.1 = cd.name) := by
  intro fuel dst src d cd dst2 h
  simp only [translate_class_def, Option.bind_eq_bind, Option.bind_eq_some,
    Option.some.injEq] at h
  obtain ⟨s, hs, h⟩ := h
  have hst0 : str_stable (dst.alloc_string s).2 s (dst.alloc_string s).1 :=
    str_stable_alloc dst s
  cases hext : d.extends_cref with
  | none =>
    rw [hext] at h
    simp only [Option.bind_eq_bind, Option.bind_eq_some, Option.some.injEq] at h
    obtain ⟨⟨ext2, dstE⟩, hE, ⟨fs2, dstF⟩, hF, ⟨sfs2, dstS⟩, hS, ⟨ms2, dstM⟩, hM, hcd⟩ := h
    rw [Prod.mk.injEq] at hE hcd
    obtain ⟨hE1, hE2⟩ := hE
    obtain ⟨hcd1, hcd2⟩ := hcd
    subst hcd1
    subst hE2
    obtain ⟨hn1, hstF⟩ := def_fields_names fuel src d.name s hs d.fields _ _ (fs2, dstF) hst0 hF
    obtain ⟨hn2, _⟩ :=
      def_static_fields_names fuel src d.name s hs d.static_fields _ _ (sfs2, dstS) hstF hS
    exact ⟨hn1, hn2⟩
  | some cref =>
    rw [hext] at h
    simp only [Option.bind_eq_bind, Option.bind_eq_some, Option.some.injEq] at h
    obtain ⟨⟨ext2, dstE⟩, ⟨⟨c2, dstC⟩, hC, hE⟩, ⟨fs2, dstF⟩, hF, ⟨sfs2, dstS⟩, hS,
      ⟨ms2, dstM⟩, hM, hcd⟩ := h
    rw [Prod.mk.injEq] at hE hcd
    obtain ⟨hE1, hE2⟩ := hE
    obtain ⟨hcd1, hcd2⟩ := hcd
    subst hcd1
    subst hE2
    have hstE : str_stable dstC s (dst.alloc_string s).1 :=
      str_stable_mono hst0 ((type_cluster_ext fuel).2.1 _ _ _ (c2, dstC) hC)
    obtain ⟨hn1, hstF⟩ := def_fields_names fuel src d.name s hs d.fields _ _ (fs2, dstF) hstE hF
    obtain ⟨hn2, _⟩ :=
      def_static_fields_names fuel src d.name s hs d.static_fields _ _ (sfs2, dstS) hstF hS
    exact ⟨hn1, hn2⟩

/-- Witness for C5: translating a concrete class definition with fields named
`"f1"`/`"f2"` yields a definition whose every field and static field is named
by the class's own name handle. -/
theorem claim_C5_witness :
    translate_class_def 9 empty_asm src_c5 cdef_c5 = some (cd_c5_res, dst_c5_res) ∧
    (∀ x ∈ cd_c5_res.fields, x.2.1 = cd_c5_res.name) ∧
    (∀ x ∈ cd_c5_res.static_fields, x.2.1 = cd_c5_res.name) :=
  ⟨by decide, claim_C5 8 empty_asm src_c5 cdef_c5 cd_c5_res dst_c5_res (by decide)⟩

/-- C6: for an add/sub/mul `BinOp` node whose operands type as `tl` and `tr`:
with `tl = tr`, `get_type` returns that type; with `tl ≠ tr` and the pair not
pointer-with-pointer-width-integer, it fails with the type-mismatch error
carrying both operand types; and in the remaining (pointer/integer) case it
does not error — so the mismatch error occurs exactly in the stated case. -/
theorem claim_C6 : ∀ (fuel sig : Nat) (locals : List (Option Nat × Nat)) (asm : Assembly)
    (l r : Nat) (op : BinOp) (nl nr : CILNode) (tl tr : Ty),
    (op = BinOp.Add ∨ op = BinOp.Sub ∨ op = BinOp.Mul) →
    asm.get_node l = some nl → asm.get_node r = some nr →
    get_type fuel sig locals asm nl = Except.ok tl →
    get_type fuel sig locals asm nr = Except.ok tr →
    ((tl = tr → get_type (fuel + 1) sig locals asm (CILNode.BinOp l r op) = Except.ok tl) ∧
     (tl ≠ tr → is_ptr_and_word_int tl tr = false →
       get_type (fuel + 1) sig locals asm (CILNode.BinOp l r op) =
         Except.error (TypeError.mismatch (mismatchMsg tl tr))) ∧
     (tl ≠ tr → is_ptr_and_word_int tl tr = true →
       ∃ t, get_type (fuel + 1) sig locals asm (CILNode.BinOp l r op) = Except.ok t)) := by
  intro fuel sig locals asm l r op nl nr tl tr hop hl hr htl htr
  rw [get_type_binop fuel sig locals asm l r op nl nr tl tr hop hl hr htl htr]
  refine ⟨?_, ?_, ?_⟩
  · intro he
    subst he
    exact arithBinopType_eq tl
  · intro hne hnp
    exact arithBinopType_mismatch hne hnp
  · intro hne hp
    exact arithBinopType_ptrpair hne hp

/-- Witness for C6: on an assembly holding the constants `1i32` and `2i64`,
adding two `i32` operands types as `i32`, and adding an `i32` to an `i64`
fails with the mismatch error naming both types. -/
theorem claim_C6_witness :
    get_type 2 0 [] asm_c6 (CILNode.BinOp 0 0 BinOp.Add) = Except.ok (Ty.Int IntTy.I32) ∧
    get_type 2 0 [] asm_c6 (CILNode.BinOp 0 1 BinOp.Add) =
      Except.error (TypeError.mismatch (mismatchMsg (Ty.Int IntTy.I32) (Ty.Int IntTy.I64))) :=
  ⟨(claim_C6 1 0 [] asm_c6 0 0 BinOp.Add (CILNode.Const (Const.I32 1))
      (CILNode.Const (Const.I32 1)) (Ty.Int IntTy.I32) (Ty.Int IntTy.I32)
      (Or.inl rfl) (by decide) (by decide) (by decide) (by decide)).1 rfl,
   (claim_C6 1 0 [] asm_c6 0 1 BinOp.Add (CILNode.Const (Const.I32 1))
      (CILNode.Const (Const.I64 2)) (Ty.Int IntTy.I32) (Ty.Int IntTy.I64)
      (Or.inl rfl) (by decide) (by decide) (by decide) (by decide)).2.1
      (by decide) (by decide)⟩

/-- C7: `translate_block` preserves the block's identifying label, the number
(and thereby order) of its roots, and the exact nesting shape of its handler
block tree (per-block labels and root counts at every depth). -/
theorem claim_C7 : ∀ (fuel : Nat) (dst src : Assembly) (b b2 : BasicBlock)
    (dst2 : Assembly), translate_block fuel dst src b = some (b2, dst2) →
    b2.block_id = b.block_id ∧ b2.roots.length = b.roots.length ∧
    block_shape b2 = block_shape b := by
  intro fuel dst src b b2 dst2 h
  have hshape := (block_cluster_shape fuel).1 dst src b (b2, dst2) h
  obtain ⟨r1, i1, h1⟩ := b
  obtain ⟨r2, i2, h2⟩ := b2
  cases h1 <;> cases h2 <;>
    simp only [block_shape, BBShape.mk.injEq] at hshape <;> simp_all [block_shape]

/-- Witness for C7: a concrete block with two levels of nested handlers
translates to a block with the same label, root count and nesting shape. -/
theorem claim_C7_witness :
    translate_block 9 dst_c7 src_c7 blk_c7 = some (blk_c7_res, dst_c7_res) ∧
    blk_c7_res.block_id = blk_c7.block_id ∧
    blk_c7_res.roots.length = blk_c7.roots.length ∧
    block_shape blk_c7_res = block_shape blk_c7 :=
  ⟨by decide, claim_C7 9 dst_c7 src_c7 blk_c7 blk_c7_res dst_c7_res (by decide)⟩

/-- Counterexample to C8 as stated: `Volatile` is an opcode of `from_v1`'s
handled set, yet upgrading `Volatile(LDArg 0)` fails (with a panic-style
contract violation, which is not an unimplemented-construct outcome). -/
theorem claim_C8_counterexample :
    from_v1 (V1Node.Volatile (V1Node.LDArg 0)) empty_asm =
      Except.error (UpgradeError.violation "explicit panic") ∧
    (∀ d, UpgradeError.violation "explicit panic" ≠ UpgradeError.unimplemented d) :=
  ⟨by decide, fun _ h => UpgradeError.noConfusion h⟩

/-- C8 (amended): every legacy node built from the handled opcode set whose
arms' own side conditions hold (`Volatile` wraps a memory load, `CastPtr`
casts to a pointer-like type, `CallVirt`/`NewObj` sites are non-static — the
well-formedness predicate `wf_v1`) upgrades without failing; a legacy node
with an opcode outside the handled set fails with an unimplemented-construct
error naming the offending variant, never silently producing a default
node. -/
theorem claim_C8 :
    (∀ v1 asm, wf_v1 v1 = true → ∃ r, from_v1 v1 asm = Except.ok r) ∧
    (∀ d asm, from_v1 (V1Node.Unhandled d) asm =
      Except.error (UpgradeError.unimplemented ("v1:" ++ d))) :=
  ⟨from_v1_total.1, fun _ _ => rfl⟩

/-- Witness for C8: a concrete well-formed legacy node upgrades successfully,
and a concrete unhandled opcode fails with the unimplemented-construct error
naming it. -/
theorem claim_C8_witness :
    (∃ r, from_v1 (V1Node.ZeroExtendToU64 V1Node.LdTrue) empty_asm = Except.ok r) ∧
    from_v1 (V1Node.Unhandled "TransmutePtr") empty_asm =
      Except.error (UpgradeError.unimplemented "v1:TransmutePtr") :=
  ⟨claim_C8.1 (V1Node.ZeroExtendToU64 V1Node.LdTrue) empty_asm (by decide),
   claim_C8.2 "TransmutePtr" empty_asm⟩

/-- C9: `translate_method_def` translates the owning class reference and
resolves it through `class_ref_to_def` before anything else: on success the
translated definition's owner is exactly the resolved class-definition
handle, and when the destination holds no definition for the translated
reference the whole call fails. -/
theorem claim_C9 : ∀ (fuel : Nat) (dst src : Assembly) (d : MethodDef),
    (∀ md dst2, translate_method_def (fuel + 1) dst src d = some (md, dst2) →
      ∃ p cdef, translate_class_ref fuel dst src d.cls = some p ∧
        p.2.class_ref_to_def p.1 = some cdef ∧ md.cls = cdef) ∧
    (∀ p, translate_class_ref fuel dst src d.cls = some p →
      p.2.class_ref_to_def p.1 = none →
      translate_method_def (fuel + 1) dst src d = none) := by
  intro fuel dst src d
  constructor
  · intro md dst2 h
    simp only [translate_method_def, Option.bind_eq_bind, Option.bind_eq_some,
      Option.some.injEq] at h
    obtain ⟨⟨clsRef, dstA⟩, hC, cdef, hcdef, s, hs, sv, hsv, ⟨s2, dstB⟩, hS,
      ⟨impl2, dstC⟩, hImpl, ⟨an2, dstD⟩, hAN, hmd⟩ := h
    rw [Prod.mk.injEq] at hmd
    obtain ⟨hmd1, hmd2⟩ := hmd
    subst hmd1
    exact ⟨(clsRef, dstA), cdef, hC, hcdef, rfl⟩
  · intro p hp hnone
    obtain ⟨clsRef, dstA⟩ := p
    simp [translate_method_def, hp, hnone]

/-- Witness for C9: translating `Foo::m` into a destination that resolves the
re-interned `Foo` reference to definition handle 7 yields a definition owned
by handle 7, and translating it into the empty destination (which resolves
nothing) fails. -/
theorem claim_C9_witness :
    (∃ p cdef, translate_class_ref 8 dst_c9 src_c9 mdef_c9.cls = some p ∧
      p.2.class_ref_to_def p.1 = some cdef ∧ md_c9_res.cls = cdef) ∧
    translate_method_def 9 empty_asm src_c9 mdef_c9 = none :=
  ⟨(claim_C9 8 dst_c9 src_c9 mdef_c9).1 md_c9_res dst_c9_res (by decide),
   (claim_C9 8 empty_asm src_c9 mdef_c9).2 (0, dst_c9_mid) (by decide) (by decide)⟩

/-- C10: upgrading a legacy `Volatile(inner)` node succeeds exactly when the
upgraded inner node is an indirect load: in that case the result is that
`LdInd` node with its volatile flag set to `true` and all other fields (and
the assembly state) unchanged; when the inner node upgrades to anything else
the upgrade fails with the panic-style contract violation, and an inner
upgrade failure propagates. -/
theorem claim_C10 : ∀ (inner : V1Node) (asm : Assembly),
    (∀ a t v asm2, from_v1 inner asm = Except.ok (CILNode.LdInd a t v, asm2) →
      from_v1 (V1Node.Volatile inner) asm = Except.ok (CILNode.LdInd a t true, asm2)) ∧
    (∀ n asm2, from_v1 inner asm = Except.ok (n, asm2) →
      (∀ a t v, n ≠ CILNode.LdInd a t v) →
      from_v1 (V1Node.Volatile inner) asm =
        Except.error (UpgradeError.violation "explicit panic")) ∧
    (∀ e, from_v1 inner asm = Except.error e →
      from_v1 (V1Node.Volatile inner) asm = Except.error e) := by
  intro inner asm
  refine ⟨?_, ?_, ?_⟩
  · intro a t v asm2 h
    simp only [from_v1, h]
  · intro n asm2 h hn
    simp only [from_v1, h]
    cases n <;> first | rfl | exact absurd rfl (hn _ _ _)
  · intro e h
    simp only [from_v1, h]

/-- Witness for C10: `Volatile(LDIndBool(LDArg 0))` upgrades to the same
indirect load with the volatile flag set; `Volatile(LDArg 0)` fails with the
contract violation; and `Volatile(Unhandled)` propagates the inner
unimplemented-construct error. -/
theorem claim_C10_witness :
    from_v1 (V1Node.Volatile (V1Node.LDIndBool (V1Node.LDArg 0))) empty_asm =
      Except.ok (CILNode.LdInd 0 0 true, asm_c10_res) ∧
    from_v1 (V1Node.Volatile (V1Node.LDArg 0)) empty_asm =
      Except.error (UpgradeError.violation "explicit panic") ∧
    from_v1 (V1Node.Volatile (V1Node.Unhandled "X")) empty_asm =
      Except.error (UpgradeError.unimplemented "v1:X") :=
  ⟨(claim_C10 (V1Node.LDIndBool (V1Node.LDArg 0)) empty_asm).1 0 0 false asm_c10_res
      (by decide),
   (claim_C10 (V1Node.LDArg 0) empty_asm).2.1 (CILNode.LdArg 0) empty_asm (by decide)
      (fun _ _ _ h => CILNode.noConfusion h),
   (claim_C10 (V1Node.Unhandled "X") empty_asm).2.2
      (UpgradeError.unimplemented "v1:X") (by decide)⟩
